import Mathlib
namespace LatencyArb

/-!
Shallow embedding of the core of the `bittap-watch` latency-arbitrage
validator (Go), together with proofs checking the natural-language
specification against the code.

Conventions of the embedding:
* Go `float64` values are modelled as exact rationals (`ℚ`); the claims under
  scrutiny are stated in real arithmetic, and none of them depends on
  floating-point rounding.
* Go `int64`/`int` are modelled as `ℤ` (or `ℕ` for buffer indices that the
  code keeps non-negative); where an overflow could matter a theorem carries
  an explicit no-overflow hypothesis.
* Pointer-mutating Go methods become state-passing functions; a `nil` pointer
  argument becomes an `Option` argument where a caller can actually pass nil.
* The transcendental library functions `math.Log` and `math.Sqrt` used by the
  signal engine are uninterpreted parameters `logQ sqrtQ : ℚ → ℚ`; theorems
  that need a property of them (e.g. `math.Sqrt` is positive on positives)
  take it as a hypothesis, and witnesses instantiate them with concrete
  computable functions satisfying the hypothesis.
-/

/-- Go's `math.Abs` / the local `abs` helper of the ev package
(`if v < 0 then -v else v`). -/
def goAbs (v : ℚ) : ℚ := if v < 0 then -v else v

/-! ## core/model: exchanges, sides, book events (model/book.go, model/signal.go, model/position.go) -/

/-- `model.ExchangeOKX` -/
def ExchangeOKX : String := "okx"

/-- `model.ExchangeBinance` -/
def ExchangeBinance : String := "binance"

/-- `model.ExchangeBittap` -/
def ExchangeBittap : String := "bittap"

/-- `model.Side` (Go string constants `long` / `short`). -/
inductive Side where
  | long
  | short
deriving DecidableEq

/-- The Go string value of a `Side` (used in signal/position ids). -/
def Side.str : Side → String
  | .long => "long"
  | .short => "short"

/-- `model.ExitReason` (Go string constants `tp` / `sl` / `timeout`). -/
inductive ExitReason where
  | tp
  | sl
  | timeout
deriving DecidableEq

/-- `model.Level` -/
structure Level where
  price : ℚ
  qty : ℚ
deriving DecidableEq

/-- `model.BookEvent` (the `time.Time` views `ArrivedAt`/`ExchTs` are derived
from the integer timestamps and are omitted). -/
structure BookEvent where
  exchange : String
  symbolCanon : String
  bestBidPx : ℚ
  bestBidQty : ℚ
  bestAskPx : ℚ
  bestAskQty : ℚ
  levels : List Level
  arrivedAtUnixNs : ℤ
  exchTsUnixMs : ℤ
  seq : ℤ
deriving DecidableEq

/-- `BookEvent.IsValid`: both best prices positive and bid < ask. -/
def BookEvent.IsValid (b : BookEvent) : Bool :=
  decide (0 < b.bestBidPx ∧ 0 < b.bestAskPx ∧ b.bestBidPx < b.bestAskPx)

/-- `BookEvent.MidPrice` -/
def BookEvent.MidPrice (b : BookEvent) : ℚ := (b.bestBidPx + b.bestAskPx) / 2

/-- `BookEvent.Top5DepthUSD`: notional of the first five levels. -/
def BookEvent.Top5DepthUSD (b : BookEvent) : ℚ :=
  (b.levels.take 5).foldl (fun total level => total + level.price * level.qty) 0

/-- `model.Signal` (the `time.Time` field `DetectedAt` mirrors `DetectedAtNs`
and is omitted; the book snapshots are `Option` because the Go fields are
pointers that `TryOpen` nil-checks). -/
structure Signal where
  id : String
  leader : String
  symbolCanon : String
  side : Side
  spreadBps : ℚ
  leaderBook : Option BookEvent
  followerBook : Option BookEvent
  detectedAtNs : ℤ
  rejectedByEV : Bool
  filterReason : String
deriving DecidableEq

/-- `model.Position` (the `time.Time` fields mirror the `…Ns` integers and are
omitted; `ExitReason` is `Option` because the Go zero value is the empty
string). -/
structure Position where
  id : String
  leader : String
  symbolCanon : String
  side : Side
  entryPx : ℚ
  entrySpread : ℚ
  entryTimeNs : ℤ
  exitPx : ℚ
  exitTimeNs : ℤ
  exitReason : Option ExitReason
  grossPnLBps : ℚ
  feeBps : ℚ
  netPnLBps : ℚ
  closed : Bool
deriving DecidableEq

/-- `Position.Direction`: +1 for long, -1 for short. -/
def Position.Direction (p : Position) : ℚ := if p.side = Side.long then 1 else -1

/-- `model.EVSnapshot` -/
structure EVSnapshot where
  winRate : ℚ
  avgProfit : ℚ
  avgLoss : ℚ
  ev : ℚ
  pRequired : ℚ
deriving DecidableEq

/-- `model.PaperTrade` (JSONL output row for a closed position). -/
structure PaperTrade where
  leader : String
  symbolCanon : String
  side : String
  tEntryNs : ℤ
  tExitNs : ℤ
  entryPx : ℚ
  exitPx : ℚ
  grossPnLBps : ℚ
  feeBps : ℚ
  netPnLBps : ℚ
  exitReason : String
  evSnapshot : Option EVSnapshot
deriving DecidableEq

/-- The Go string value of an optional `ExitReason` (zero value `""`). -/
def exitReasonStr : Option ExitReason → String
  | none => ""
  | some .tp => "tp"
  | some .sl => "sl"
  | some .timeout => "timeout"

/-- `Position.ToPaperTrade` -/
def Position.ToPaperTrade (p : Position) (evSnapshot : Option EVSnapshot) : PaperTrade :=
  { leader := p.leader
    symbolCanon := p.symbolCanon
    side := p.side.str
    tEntryNs := p.entryTimeNs
    tExitNs := p.exitTimeNs
    entryPx := p.entryPx
    exitPx := p.exitPx
    grossPnLBps := p.grossPnLBps
    feeBps := p.feeBps
    netPnLBps := p.netPnLBps
    exitReason := exitReasonStr p.exitReason
    evSnapshot := evSnapshot }

/-! ## core/store (store/store.go): the Go two-level map is modelled as a
total function to `Option BookEvent`. -/

/-- `store.Store` -/
structure Store where
  books : String → String → Option BookEvent

/-- `store.New` -/
def Store.New : Store := ⟨fun _ _ => none⟩

/-- `Store.Update`: drop events with empty exchange or symbol, else overwrite
the `(exchange, symbol)` entry. (The nil-pointer branch of the Go code is
unrepresentable here; `handleBookEvent` models the nil check of its caller.) -/
def Store.Update (s : Store) (ev : BookEvent) : Store :=
  if ev.exchange = "" ∨ ev.symbolCanon = "" then s
  else ⟨fun ex sym =>
    if ex = ev.exchange ∧ sym = ev.symbolCanon then some ev else s.books ex sym⟩

/-- `Store.Get` -/
def Store.Get (s : Store) (exchange symbolCanon : String) : Option BookEvent :=
  s.books exchange symbolCanon

/-- `Store.GetPair` -/
def Store.GetPair (s : Store) (leader symbolCanon : String) :
    Option BookEvent × Option BookEvent :=
  (s.Get leader symbolCanon, s.Get ExchangeBittap symbolCanon)

/-! ## util/backoff (backoff/backoff.go) -/

/-- `backoff.Backoff`. `base` and `max` are `time.Duration` (int64
nanoseconds), `attempt` a non-negative `int`. -/
structure Backoff where
  base : ℤ
  max : ℤ
  jitter : ℚ
  attempt : ℕ
deriving DecidableEq

/-- `backoff.New` -/
def Backoff.New (base max : ℤ) (jitter : ℚ) : Backoff :=
  ⟨base, max, jitter, 0⟩

/-- The pre-jitter delay of `Backoff.Next` at attempt number `attempt`:
`base * 2^attempt` (the `int64(1) << attempt` multiplier, modelled as
`2 ^ attempt`, exact for non-overflowing attempts) capped at `max`. -/
def backoffPreDelay (base max : ℤ) (attempt : ℕ) : ℤ :=
  if max < base * 2 ^ attempt then max else base * 2 ^ attempt

/-- `Backoff.Next`. `r` models the value of `rand.Float64()` (in `[0,1)`).
The `float64 → time.Duration` conversion truncates, modelled by `Int.floor`
(equal to Go's truncation-toward-zero for the non-negative products reached
under the theorems' hypotheses). Returns the delay and the updated state. -/
def Backoff.Next (b : Backoff) (r : ℚ) : ℤ × Backoff :=
  let delay : ℤ := backoffPreDelay b.base b.max b.attempt
  let delay' : ℤ :=
    if 0 < b.jitter then
      let jitterFactor : ℚ := 1 + (r * 2 - 1) * b.jitter
      ⌊(delay : ℚ) * jitterFactor⌋
    else delay
  (delay', { b with attempt := b.attempt + 1 })

/-! ## stats/latency (lag tracker) -/

/-- `latency.rollingWindow` (the mutex only guards the in-place mutation and
has no functional content). -/
structure RollingWindow where
  size : ℤ
  buf : List ℤ
  pos : ℕ
  count : ℤ
  full : Bool
deriving DecidableEq

/-- `latency.newRollingWindow` -/
def RollingWindow.new (size : ℤ) : RollingWindow :=
  ⟨size, [], 0, 0, false⟩

/-- `rollingWindow.add` -/
def RollingWindow.add (w : RollingWindow) (v : ℤ) : RollingWindow :=
  let w := { w with count := w.count + 1 }
  if w.size ≤ 0 then w
  else if !w.full then
    let buf := w.buf ++ [v]
    if (buf.length : ℤ) = w.size then { w with buf := buf, full := true, pos := 0 }
    else { w with buf := buf }
  else
    let buf := w.buf.set w.pos v
    let pos := w.pos + 1
    if w.size ≤ (pos : ℤ) then { w with buf := buf, pos := 0 }
    else { w with buf := buf, pos := pos }

/-- `latency.linkTracker` -/
structure LinkTracker where
  arrived : RollingWindow
  event : RollingWindow
deriving DecidableEq

/-- `latency.Tracker` -/
structure Tracker where
  okx : LinkTracker
  binance : LinkTracker
deriving DecidableEq

/-- `latency.NewTracker` -/
def Tracker.NewTracker (windowSize : ℤ) : Tracker :=
  ⟨⟨RollingWindow.new windowSize, RollingWindow.new windowSize⟩,
   ⟨RollingWindow.new windowSize, RollingWindow.new windowSize⟩⟩

/-- `timeutil.MsToNano` -/
def MsToNano (ms : ℤ) : ℤ := ms * 1000000

/-- `Tracker.Add` (latency tracker update; the nil checks of the Go code are
unrepresentable, its caller `handleBookEvent` only passes present books). -/
def Tracker.Add (t : Tracker) (leaderEv followerEv : BookEvent) : Tracker :=
  if followerEv.exchange ≠ ExchangeBittap then t
  else if leaderEv.symbolCanon = "" ∨ followerEv.symbolCanon = "" ∨
      leaderEv.symbolCanon ≠ followerEv.symbolCanon then t
  else
    let lagArrivedNs := followerEv.arrivedAtUnixNs - leaderEv.arrivedAtUnixNs
    let lagEventNs : ℤ :=
      if 0 < leaderEv.exchTsUnixMs then
        followerEv.arrivedAtUnixNs - MsToNano leaderEv.exchTsUnixMs
      else 0
    if leaderEv.exchange = ExchangeOKX then
      { t with okx :=
        { arrived := t.okx.arrived.add lagArrivedNs
          event := if lagEventNs ≠ 0 then t.okx.event.add lagEventNs else t.okx.event } }
    else if leaderEv.exchange = ExchangeBinance then
      { t with binance :=
        { arrived := t.binance.arrived.add lagArrivedNs
          event := if lagEventNs ≠ 0 then t.binance.event.add lagEventNs else t.binance.event } }
    else t

/-! ## Configuration structs.

Modelled from the spec: the `internal/config` struct declarations are not
under `src/` (only `config_test.go` and users are); the field sets are fixed
by their uses in `engine.go`, `executor.go` and the tests, and by the spec's
configuration surface (§6). -/

/-- Modelled from the spec: `config.StrategyConfig`
`{θ_entry_bps, persist_ms, min_depth_usd, vol_filter_enabled, vol_threshold,
cooldown_ms}` (fields as referenced by `signal/engine.go`). -/
structure StrategyConfig where
  thetaEntryBps : ℚ
  persistMs : ℤ
  minDepthUSD : ℚ
  volFilterEnabled : Bool
  volThreshold : ℚ
  cooldownMs : ℤ
deriving DecidableEq

/-- Modelled from the spec: `config.PaperConfig`
`{tp_ratio, sl_ratio, max_hold_ms, slippage_bps}` (fields as referenced by
`paper/executor.go`). -/
structure PaperConfig where
  tpRatio : ℚ
  slRatio : ℚ
  maxHoldMs : ℤ
  slippageBps : ℚ
deriving DecidableEq

/-- Modelled from the spec: `config.FeeDetail` `{taker_rate, maker_rate,
rebate_rate}` (spec §6 fee surface; constructed in the executor tests). -/
structure FeeDetail where
  takerRate : ℚ
  makerRate : ℚ
  rebateRate : ℚ
deriving DecidableEq

/-- Modelled from the spec: `config.FeeDetail.EffectiveTakerFee` is not under
`src/` (only its caller `Executor.TryOpen` is); spec §4.5 fixes
`fee_bps = 2 · taker_rate · (1 − rebate_rate) · 10⁴` via
`pos.FeeBps = 2 * effectiveFee * 10000`, so the effective taker fee is
`taker_rate · (1 − rebate_rate)`. -/
def FeeDetail.EffectiveTakerFee (f : FeeDetail) : ℚ :=
  f.takerRate * (1 - f.rebateRate)

/-! ## core/signal (signal/engine.go)

The per-symbol Go map `states` is modelled as a total function with the Go
zero value as default: `getState` inserting a fresh zero-valued state into the
map is observationally the same as reading the default. -/

/-- `signal.candidateState` -/
structure CandidateState where
  active : Bool := false
  startNs : ℤ := 0
  signaled : Bool := false
deriving DecidableEq

/-- `signal.volState` -/
structure VolState where
  lastSampleNs : ℤ := 0
  samples : List ℚ := []
  maxSamples : ℕ := 60
deriving DecidableEq

/-- `signal.symbolState` -/
structure SymbolState where
  longCand : CandidateState := {}
  shortCand : CandidateState := {}
  vol : VolState := {}
  cooldownUntilNs : ℤ := 0
deriving DecidableEq

/-- `signal.Engine` -/
structure Engine where
  leader : String
  cfg : StrategyConfig
  persistNs : ℤ
  states : String → SymbolState

/-- `signal.NewEngine` (fresh states; `getState` initializes `maxSamples`
to 60, the zero default of `VolState` here). -/
def Engine.NewEngine (leader : String) (cfg : StrategyConfig) : Engine :=
  { leader := leader
    cfg := cfg
    persistNs := cfg.persistMs * 1000000
    states := fun _ => {} }

/-- Write back one symbol's state (the Go code mutates the map entry in
place). -/
def Engine.setState (e : Engine) (symbolCanon : String) (st : SymbolState) : Engine :=
  { e with states := fun s => if s = symbolCanon then st else e.states s }

/-- `Engine.NotifyStopLoss` -/
def Engine.NotifyStopLoss (e : Engine) (symbolCanon : String) (nowNs : ℤ) : Engine :=
  e.setState symbolCanon
    { e.states symbolCanon with cooldownUntilNs := nowNs + e.cfg.cooldownMs * 1000000 }

/-- `signal.calcLongSpreadBps` (returns `none` for the `ok = false` case). -/
def calcLongSpreadBps (leaderBook followerBook : BookEvent) : Option ℚ :=
  if leaderBook.bestBidPx ≤ 0 ∨ followerBook.bestAskPx ≤ 0 then none
  else some ((leaderBook.bestBidPx - followerBook.bestAskPx) / followerBook.bestAskPx * 10000)

/-- `signal.calcShortSpreadBps` -/
def calcShortSpreadBps (leaderBook followerBook : BookEvent) : Option ℚ :=
  if followerBook.bestBidPx ≤ 0 ∨ leaderBook.bestAskPx ≤ 0 then none
  else some ((followerBook.bestBidPx - leaderBook.bestAskPx) / leaderBook.bestAskPx * 10000)

/-- `Engine.updateVol` (per-second mid-price resampling, keeping the last
`maxSamples` samples). -/
def updateVol (v : VolState) (nowNs : ℤ) (midPx : ℚ) : VolState :=
  if midPx ≤ 0 then v
  else if 0 < v.lastSampleNs ∧ nowNs - v.lastSampleNs < 1000000000 then v
  else
    let samples := v.samples ++ [midPx]
    let samples :=
      if v.maxSamples < samples.length then samples.drop (samples.length - v.maxSamples)
      else samples
    { v with lastSampleNs := nowNs, samples := samples }

/-- The log-return list computed inside `Engine.realizedVol`: for each pair of
consecutive samples with both entries positive, `log (p1 / p0)`. `logQ` stands
for `math.Log`. -/
def volReturns (logQ : ℚ → ℚ) : List ℚ → List ℚ
  | p0 :: p1 :: rest =>
      if p0 ≤ 0 ∨ p1 ≤ 0 then volReturns logQ (p1 :: rest)
      else logQ (p1 / p0) :: volReturns logQ (p1 :: rest)
  | _ => []

/-- Sum of squared deviations from the mean (the `ss` accumulator of
`Engine.realizedVol`). -/
def sumSqDev (l : List ℚ) : ℚ :=
  let mean := l.sum / l.length
  (l.map (fun r => (r - mean) * (r - mean))).sum

/-- `Engine.realizedVol`: sample standard deviation (ddof = 1) of the
log-returns; 0 with fewer than two samples or fewer than two returns.
`sqrtQ` stands for `math.Sqrt`. -/
def realizedVol (logQ sqrtQ : ℚ → ℚ) (v : VolState) : ℚ :=
  if v.samples.length < 2 then 0
  else
    let returns := volReturns logQ v.samples
    if returns.length < 2 then 0
    else sqrtQ (sumSqDev returns / (returns.length - 1))

/-- The signal literal built at both firing points of `Engine.tryFire`. -/
def mkSignal (e : Engine) (nowNs : ℤ) (leaderBook followerBook : BookEvent)
    (side : Side) (spreadBps : ℚ) : Signal :=
  { id := e.leader ++ "-" ++ leaderBook.symbolCanon ++ "-" ++ side.str ++ "-" ++ toString nowNs
    leader := e.leader
    symbolCanon := leaderBook.symbolCanon
    side := side
    spreadBps := spreadBps
    leaderBook := some leaderBook
    followerBook := some followerBook
    detectedAtNs := nowNs
    rejectedByEV := false
    filterReason := "" }

/-- `Engine.tryFire`: persistence state machine for one side's candidate.
Returns the fired signal (if any) and the updated candidate. -/
def Engine.tryFire (e : Engine) (nowNs : ℤ) (leaderBook followerBook : BookEvent)
    (side : Side) (spreadBps : ℚ) (cand : CandidateState) :
    Option Signal × CandidateState :=
  if !cand.active then
    if e.persistNs = 0 then
      (some (mkSignal e nowNs leaderBook followerBook side spreadBps),
       { active := true, startNs := nowNs, signaled := true })
    else
      (none, { active := true, startNs := nowNs, signaled := false })
  else if cand.signaled then (none, cand)
  else if nowNs - cand.startNs < e.persistNs then (none, cand)
  else
    (some (mkSignal e nowNs leaderBook followerBook side spreadBps),
     { cand with signaled := true })

/-- `Engine.Evaluate`: precondition guards, stop-loss cooldown, depth filter,
optional volatility filter, then the long candidate (pre-empting short) and
the short candidate. Returns the emitted signal (if any) and the updated
engine. -/
def Engine.Evaluate (logQ sqrtQ : ℚ → ℚ) (e : Engine) (nowNs : ℤ)
    (leaderBook followerBook : BookEvent) : Option Signal × Engine :=
  if leaderBook.exchange ≠ e.leader then (none, e)
  else if followerBook.exchange ≠ ExchangeBittap then (none, e)
  else if leaderBook.symbolCanon = "" ∨ followerBook.symbolCanon = "" ∨
      leaderBook.symbolCanon ≠ followerBook.symbolCanon then (none, e)
  else if !leaderBook.IsValid ∨ !followerBook.IsValid then (none, e)
  else
    let sym := leaderBook.symbolCanon
    let st := e.states sym
    if 0 < st.cooldownUntilNs ∧ nowNs < st.cooldownUntilNs then (none, e)
    else if 0 < e.cfg.minDepthUSD ∧ leaderBook.Top5DepthUSD < e.cfg.minDepthUSD then
      (none, e.setState sym { st with longCand := {}, shortCand := {} })
    else
      let st₁ :=
        if e.cfg.volFilterEnabled then
          { st with vol := updateVol st.vol nowNs leaderBook.MidPrice }
        else st
      if e.cfg.volFilterEnabled ∧ e.cfg.volThreshold < realizedVol logQ sqrtQ st₁.vol then
        (none, e.setState sym st₁)
      else
        let longStep : Option Signal × SymbolState :=
          match calcLongSpreadBps leaderBook followerBook with
          | some longBps =>
              if e.cfg.thetaEntryBps < longBps then
                let fired := e.tryFire nowNs leaderBook followerBook Side.long longBps st₁.longCand
                (fired.1, { st₁ with longCand := fired.2 })
              else (none, { st₁ with longCand := {} })
          | none => (none, { st₁ with longCand := {} })
        match longStep with
        | (some sig, st₂) => (some sig, e.setState sym st₂)
        | (none, st₂) =>
          let shortStep : Option Signal × SymbolState :=
            match calcShortSpreadBps leaderBook followerBook with
            | some shortBps =>
                if e.cfg.thetaEntryBps < shortBps then
                  let fired := e.tryFire nowNs leaderBook followerBook Side.short shortBps st₂.shortCand
                  (fired.1, { st₂ with shortCand := fired.2 })
                else (none, { st₂ with shortCand := {} })
            | none => (none, { st₂ with shortCand := {} })
          (shortStep.1, e.setState sym shortStep.2)

/-! ## core/paper (paper/executor.go) -/

/-- `paper.Executor`; the per-symbol Go map `positions` is a total function to
`Option Position` (`nil` entry = `none`). -/
structure Executor where
  leader : String
  cfg : PaperConfig
  fee : FeeDetail
  positions : String → Option Position

/-- `paper.NewExecutor` -/
def Executor.NewExecutor (leader : String) (cfg : PaperConfig) (fee : FeeDetail) : Executor :=
  { leader := leader, cfg := cfg, fee := fee, positions := fun _ => none }

/-- `Executor.entryPx` (`none` = the Go error return). -/
def Executor.entryPx (e : Executor) (side : Side) (followerBook : BookEvent) : Option ℚ :=
  let slip := e.cfg.slippageBps / 10000
  match side with
  | .long =>
      if followerBook.bestAskPx ≤ 0 then none
      else some (followerBook.bestAskPx * (1 + slip))
  | .short =>
      if followerBook.bestBidPx ≤ 0 then none
      else some (followerBook.bestBidPx * (1 - slip))

/-- `Executor.exitPx` (`none` = the Go error return). -/
def Executor.exitPx (e : Executor) (side : Side) (followerBook : BookEvent) : Option ℚ :=
  let slip := e.cfg.slippageBps / 10000
  match side with
  | .long =>
      if followerBook.bestBidPx ≤ 0 then none
      else some (followerBook.bestBidPx * (1 - slip))
  | .short =>
      if followerBook.bestAskPx ≤ 0 then none
      else some (followerBook.bestAskPx * (1 + slip))

/-- `paper.currentSpreadBps` (`none` for the `ok = false` case). -/
def currentSpreadBps (side : Side) (leaderBook followerBook : BookEvent) : Option ℚ :=
  match side with
  | .long =>
      if followerBook.bestAskPx ≤ 0 ∨ leaderBook.bestBidPx ≤ 0 then none
      else some ((leaderBook.bestBidPx - followerBook.bestAskPx) / followerBook.bestAskPx * 10000)
  | .short =>
      if leaderBook.bestAskPx ≤ 0 ∨ followerBook.bestBidPx ≤ 0 then none
      else some ((followerBook.bestBidPx - leaderBook.bestAskPx) / leaderBook.bestAskPx * 10000)

/-- `Executor.TryOpen` result: position, opened flag, error (`Option String`
models Go's `error`), updated executor. -/
structure TryOpenResult where
  position : Option Position
  opened : Bool
  err : Option String
  exec : Executor

/-- The accepting tail of `Executor.TryOpen`: entry price, position literal,
map insert. -/
def Executor.tryOpenAt (e : Executor) (sig : Signal) (followerBook : BookEvent) : TryOpenResult :=
  match e.entryPx sig.side followerBook with
  | none => ⟨none, false, some "invalid price", e⟩
  | some entryPx =>
    let pos : Position :=
      { id := "paper-" ++ e.leader ++ "-" ++ sig.symbolCanon ++ "-" ++ toString sig.detectedAtNs
        leader := e.leader
        symbolCanon := sig.symbolCanon
        side := sig.side
        entryPx := entryPx
        entrySpread := sig.spreadBps
        entryTimeNs := sig.detectedAtNs
        exitPx := 0
        exitTimeNs := 0
        exitReason := none
        grossPnLBps := 0
        feeBps := 2 * e.fee.EffectiveTakerFee * 10000
        netPnLBps := 0
        closed := false }
    ⟨some pos, true, none,
     { e with positions := fun s => if s = sig.symbolCanon then some pos else e.positions s }⟩

/-- `Executor.TryOpen` (the argument is `Option Signal` because the Go caller
may pass a nil pointer). -/
def Executor.TryOpen (e : Executor) (sig? : Option Signal) : TryOpenResult :=
  match sig? with
  | none => ⟨none, false, none, e⟩
  | some sig =>
    if sig.leader ≠ e.leader ∨ sig.symbolCanon = "" then ⟨none, false, none, e⟩
    else match sig.followerBook, sig.leaderBook with
    | none, _ => ⟨none, false, some "missing book snapshot", e⟩
    | _, none => ⟨none, false, some "missing book snapshot", e⟩
    | some followerBook, some _ =>
      if followerBook.exchange ≠ ExchangeBittap then
        ⟨none, false, some "follower must be bittap", e⟩
      else match e.positions sig.symbolCanon with
      | some p =>
        if !p.closed then ⟨none, false, none, e⟩
        else e.tryOpenAt sig followerBook
      | none => e.tryOpenAt sig followerBook

/-- `Executor.close`: compute the exit price first; on error return `nil` and
leave the position untouched, otherwise set all exit fields and the PnL. -/
def Executor.close (e : Executor) (nowNs : ℤ) (pos : Position) (followerBook : BookEvent)
    (reason : ExitReason) : Option Position × Executor :=
  match e.exitPx pos.side followerBook with
  | none => (none, e)
  | some exitPx =>
    let gross := (exitPx - pos.entryPx) / pos.entryPx * 10000 * pos.Direction
    let pos' := { pos with
      exitPx := exitPx
      exitTimeNs := nowNs
      exitReason := some reason
      closed := true
      grossPnLBps := gross
      netPnLBps := gross - pos.feeBps }
    (some pos',
     { e with positions := fun s => if s = pos.symbolCanon then some pos' else e.positions s })

/-- The take-profit condition of `Executor.Evaluate`:
`tp_ratio > 0 ∧ |entry| > 0 ∧ |cur| ≤ (1 − tp_ratio)·|entry|`. -/
abbrev tpExitCond (cfg : PaperConfig) (entryAbs curAbs : ℚ) : Prop :=
  0 < cfg.tpRatio ∧ 0 < entryAbs ∧ curAbs ≤ (1 - cfg.tpRatio) * entryAbs

/-- The stop-loss condition of `Executor.Evaluate`:
`sl_ratio > 0 ∧ |entry| > 0 ∧ |cur| ≥ (1 + sl_ratio)·|entry|`. -/
abbrev slExitCond (cfg : PaperConfig) (entryAbs curAbs : ℚ) : Prop :=
  0 < cfg.slRatio ∧ 0 < entryAbs ∧ (1 + cfg.slRatio) * entryAbs ≤ curAbs

/-- The timeout condition of `Executor.Evaluate`:
`max_hold_ms > 0 ∧ now − entry_time > max_hold_ms·10⁶`. -/
abbrev timeoutExitCond (cfg : PaperConfig) (nowNs entryTimeNs : ℤ) : Prop :=
  0 < cfg.maxHoldMs ∧ cfg.maxHoldMs * 1000000 < nowNs - entryTimeNs

/-- `Executor.Evaluate`: guards, current spread, then TP / SL / timeout in
that order. Returns the closed position (if any) and the updated executor. -/
def Executor.Evaluate (e : Executor) (nowNs : ℤ) (leaderBook followerBook : BookEvent) :
    Option Position × Executor :=
  if leaderBook.exchange ≠ e.leader ∨ followerBook.exchange ≠ ExchangeBittap then (none, e)
  else if leaderBook.symbolCanon = "" ∨ followerBook.symbolCanon = "" ∨
      leaderBook.symbolCanon ≠ followerBook.symbolCanon then (none, e)
  else match e.positions leaderBook.symbolCanon with
  | none => (none, e)
  | some pos =>
    if pos.closed then (none, e)
    else match currentSpreadBps pos.side leaderBook followerBook with
    | none => (none, e)
    | some curSpread =>
      let entryAbs := goAbs pos.entrySpread
      let curAbs := goAbs curSpread
      if tpExitCond e.cfg entryAbs curAbs then
        e.close nowNs pos followerBook ExitReason.tp
      else if slExitCond e.cfg entryAbs curAbs then
        e.close nowNs pos followerBook ExitReason.sl
      else if timeoutExitCond e.cfg nowNs pos.entryTimeNs then
        e.close nowNs pos followerBook ExitReason.timeout
      else (none, e)

/-! ## stats/ev (EV calculator and rejection filter) -/

/-- `ev.tradeSample` -/
structure TradeSample where
  win : Bool := false
  grossPnLBps : ℚ := 0
  feeBps : ℚ := 0
  netPnLBps : ℚ := 0
  symbolCanon : String := ""
  exitReason : Option ExitReason := none
deriving DecidableEq, Inhabited

/-- `ev.EVStats` -/
structure EVStats where
  count : ℤ := 0
  winCount : ℤ := 0
  lossCount : ℤ := 0
  winRate : ℚ := 0
  avgProfit : ℚ := 0
  avgLoss : ℚ := 0
  feeBps : ℚ := 0
  ev : ℚ := 0
  pRequired : ℚ := 0
deriving DecidableEq

/-- `ev.Calculator`: ring buffer of trade samples plus O(1) running sums.
`pos` is `ℕ` (the Go `int` stays in `[0, windowSize)`). -/
structure Calculator where
  windowSize : ℕ
  buf : List TradeSample
  pos : ℕ
  full : Bool
  count : ℤ
  winCount : ℤ
  lossCount : ℤ
  sumWinR : ℚ
  sumLossL : ℚ
  sumFee : ℚ
deriving DecidableEq

/-- `ev.NewCalculator` (non-positive window size falls back to 1000; the Go
`make([]tradeSample, windowSize)` zero-fills the buffer). -/
def Calculator.NewCalculator (windowSize : ℤ) : Calculator :=
  let ws : ℕ := if windowSize ≤ 0 then 1000 else windowSize.toNat
  { windowSize := ws
    buf := List.replicate ws default
    pos := 0
    full := false
    count := 0
    winCount := 0
    lossCount := 0
    sumWinR := 0
    sumLossL := 0
    sumFee := 0 }

/-- `Calculator.Add`: no-op for a nil or non-closed position; if the ring is
full, first remove the evicted sample's contribution, then write and count the
new sample. -/
def Calculator.Add (c : Calculator) (pos? : Option Position) : Calculator :=
  match pos? with
  | none => c
  | some p =>
    if !p.closed then c
    else
      let s : TradeSample :=
        { win := decide (0 < p.netPnLBps)
          grossPnLBps := p.grossPnLBps
          feeBps := p.feeBps
          netPnLBps := p.netPnLBps
          symbolCanon := p.symbolCanon
          exitReason := p.exitReason }
      let c₁ : Calculator :=
        if c.full then
          let old := c.buf.getD c.pos default
          { c with
            count := c.count - 1
            winCount := if old.win then c.winCount - 1 else c.winCount
            lossCount := if old.win then c.lossCount else c.lossCount - 1
            sumWinR := if old.win then c.sumWinR - old.grossPnLBps else c.sumWinR
            sumLossL := if old.win then c.sumLossL else c.sumLossL - goAbs old.grossPnLBps
            sumFee := c.sumFee - old.feeBps }
        else c
      let c₂ : Calculator := { c₁ with buf := c₁.buf.set c₁.pos s }
      let c₃ : Calculator :=
        if c₂.windowSize ≤ c₂.pos + 1 then { c₂ with pos := 0, full := true }
        else { c₂ with pos := c₂.pos + 1 }
      { c₃ with
        count := c₃.count + 1
        winCount := if s.win then c₃.winCount + 1 else c₃.winCount
        lossCount := if s.win then c₃.lossCount else c₃.lossCount + 1
        sumWinR := if s.win then c₃.sumWinR + s.grossPnLBps else c₃.sumWinR
        sumLossL := if s.win then c₃.sumLossL else c₃.sumLossL + goAbs s.grossPnLBps
        sumFee := c₃.sumFee + s.feeBps }

/-- `Calculator.Stats`: early all-zero return for `count ≤ 0`, else the
win-rate / averages / EV / breakeven-win-rate formulas. -/
def Calculator.Stats (c : Calculator) : EVStats :=
  let out : EVStats := { count := c.count, winCount := c.winCount, lossCount := c.lossCount }
  if c.count ≤ 0 then out
  else
    let p := (c.winCount : ℚ) / (c.count : ℚ)
    let f := c.sumFee / (c.count : ℚ)
    let R := if 0 < c.winCount then c.sumWinR / (c.winCount : ℚ) else 0
    let L := if 0 < c.lossCount then c.sumLossL / (c.lossCount : ℚ) else 0
    let evVal := p * (R - f) + (1 - p) * (-L - f)
    let pReq := if 0 < R + L then (L + f) / (R + L) else 1
    { out with
      winRate := p
      feeBps := f
      avgProfit := R
      avgLoss := L
      ev := evVal
      pRequired := pReq }

/-- `Calculator.Snapshot` -/
def Calculator.Snapshot (c : Calculator) : EVSnapshot :=
  let stats := c.Stats
  { winRate := stats.winRate
    avgProfit := stats.avgProfit
    avgLoss := stats.avgLoss
    ev := stats.ev
    pRequired := stats.pRequired }

/-- `ev.ApplyRejection`: when `count > 0` and `EV < 0`, mark the signal (the
nil-signal branch is handled by the `Option`-taking caller model). -/
def ApplyRejection (sig : Signal) (stats : EVStats) : Signal :=
  if 0 < stats.count ∧ stats.ev < 0 then
    { sig with rejectedByEV := true, filterReason := "ev_negative" }
  else sig

/-! ## Aggregator (cmd wiring: `handleBookEvent` / `applyEVAndMaybeOpen`).

Writers are modelled as the lists of records they receive (the Go code only
nil-checks them and sends; both writers are non-nil in the wiring). Logging
has no functional content and is dropped. -/

/-- Outcome of `applyEVAndMaybeOpen`: the (possibly marked) signal as written
to the signals writer, whether `TryOpen` was called, its outcome, and the
updated executor. -/
structure ApplyOutcome where
  sig : Signal
  writtenSignals : List Signal
  tryOpenCalled : Bool
  openedPosition : Option Position
  exec : Executor

/-- `applyEVAndMaybeOpen`: take the leader's EV stats, apply the rejection
mark, always write the signal, and call `TryOpen` only when not rejected.
(The nil-signal guard lives in the caller's `Option` match.) -/
def applyEVAndMaybeOpen (sig : Signal) (evCalc : Calculator) (exec : Executor) :
    ApplyOutcome :=
  let evStats := evCalc.Stats
  let sig' := ApplyRejection sig evStats
  if sig'.rejectedByEV then
    { sig := sig', writtenSignals := [sig'], tryOpenCalled := false,
      openedPosition := none, exec := exec }
  else
    let res := exec.TryOpen (some sig')
    { sig := sig', writtenSignals := [sig'], tryOpenCalled := true,
      openedPosition := if res.opened then res.position else none, exec := res.exec }

/-- The aggregator-owned state threaded through `handleBookEvent`
(store, lag tracker, two engines, two executors, two EV calculators, output
record lists, per-(venue, symbol) counters). -/
structure AggState where
  store : Store
  lat : Tracker
  okxEngine : Engine
  binanceEngine : Engine
  okxExec : Executor
  binanceExec : Executor
  okxEV : Calculator
  binanceEV : Calculator
  signalsOut : List Signal
  paperOut : List PaperTrade
  counts : String × String → ℤ

/-- The per-leader tail of `handleBookEvent`: signal evaluation plus EV
rejection plus paper-executor evaluation for one leader chain, given the
present pair of books. -/
def leaderChainStep (logQ sqrtQ : ℚ → ℚ) (arrivedNs : ℤ)
    (leaderBook bittapBook : BookEvent)
    (engine : Engine) (exec : Executor) (evCalc : Calculator)
    (signalsOut : List Signal) (paperOut : List PaperTrade) :
    Engine × Executor × Calculator × List Signal × List PaperTrade :=
  let evalRes := engine.Evaluate logQ sqrtQ arrivedNs leaderBook bittapBook
  let engine₁ := evalRes.2
  let afterSig :
      Executor × List Signal :=
    match evalRes.1 with
    | some sig =>
        let out := applyEVAndMaybeOpen sig evCalc exec
        (out.exec, signalsOut ++ out.writtenSignals)
    | none => (exec, signalsOut)
  let exec₁ := afterSig.1
  let signalsOut₁ := afterSig.2
  let evalClosed := exec₁.Evaluate arrivedNs leaderBook bittapBook
  let exec₂ := evalClosed.2
  match evalClosed.1 with
  | some closed =>
      let evCalc₁ := evCalc.Add (some closed)
      let engine₂ :=
        if closed.exitReason = some ExitReason.sl then
          engine₁.NotifyStopLoss closed.symbolCanon arrivedNs
        else engine₁
      (engine₂, exec₂, evCalc₁, signalsOut₁,
       paperOut ++ [closed.ToPaperTrade (some evCalc₁.Snapshot)])
  | none => (engine₁, exec₂, evCalc, signalsOut₁, paperOut)

/-- `handleBookEvent`: drop nil/empty events, bump the rate counter, update
the store, record lag on follower events, then run both leader chains. -/
def handleBookEvent (logQ sqrtQ : ℚ → ℚ) (st : AggState) (ev : BookEvent) : AggState :=
  if ev.exchange = "" ∨ ev.symbolCanon = "" then st
  else
    let counts' : String × String → ℤ := fun k =>
      if k = (ev.exchange, ev.symbolCanon) then st.counts k + 1 else st.counts k
    let store' := st.store.Update ev
    let lat' :=
      if ev.exchange = ExchangeBittap then
        let lat₁ :=
          match (store'.GetPair ExchangeOKX ev.symbolCanon).1 with
          | some okxBook => st.lat.Add okxBook ev
          | none => st.lat
        match (store'.GetPair ExchangeBinance ev.symbolCanon).1 with
        | some binanceBook => lat₁.Add binanceBook ev
        | none => lat₁
      else st.lat
    let okxPair := store'.GetPair ExchangeOKX ev.symbolCanon
    let okxStep :=
      match okxPair.1, okxPair.2 with
      | some okxBook, some bittapBook =>
          leaderChainStep logQ sqrtQ ev.arrivedAtUnixNs okxBook bittapBook
            st.okxEngine st.okxExec st.okxEV st.signalsOut st.paperOut
      | _, _ => (st.okxEngine, st.okxExec, st.okxEV, st.signalsOut, st.paperOut)
    let binPair := store'.GetPair ExchangeBinance ev.symbolCanon
    let binStep :=
      match binPair.1, binPair.2 with
      | some binBook, some bittapBook =>
          leaderChainStep logQ sqrtQ ev.arrivedAtUnixNs binBook bittapBook
            st.binanceEngine st.binanceExec st.binanceEV okxStep.2.2.2.1 okxStep.2.2.2.2
      | _, _ => (st.binanceEngine, st.binanceExec, st.binanceEV,
                 okxStep.2.2.2.1, okxStep.2.2.2.2)
    { store := store'
      lat := lat'
      okxEngine := okxStep.1
      binanceEngine := binStep.1
      okxExec := okxStep.2.1
      binanceExec := binStep.2.1
      okxEV := okxStep.2.2.1
      binanceEV := binStep.2.2.1
      signalsOut := binStep.2.2.2.1
      paperOut := binStep.2.2.2.2
      counts := counts' }

/-- The aggregator state at startup: empty store, fresh trackers, engines,
executors and calculators, no records written. -/
def AggState.init (strat : StrategyConfig) (paper : PaperConfig) (fee : FeeDetail)
    (lagWindow evWindow : ℤ) : AggState :=
  { store := Store.New
    lat := Tracker.NewTracker lagWindow
    okxEngine := Engine.NewEngine ExchangeOKX strat
    binanceEngine := Engine.NewEngine ExchangeBinance strat
    okxExec := Executor.NewExecutor ExchangeOKX paper fee
    binanceExec := Executor.NewExecutor ExchangeBinance paper fee
    okxEV := Calculator.NewCalculator evWindow
    binanceEV := Calculator.NewCalculator evWindow
    signalsOut := []
    paperOut := []
    counts := fun _ => 0 }

/-! ## Shared concrete fixtures for witnesses and counterexamples -/

/-- A valid OKX top-of-book (bid 100 / ask 101). -/
def okxBook : BookEvent :=
  { exchange := ExchangeOKX, symbolCanon := "BTCUSDT"
    bestBidPx := 100, bestBidQty := 1, bestAskPx := 101, bestAskQty := 1
    levels := [⟨100, 10⟩], arrivedAtUnixNs := 0, exchTsUnixMs := 0, seq := 0 }

/-- A valid Bittap top-of-book (bid 98 / ask 99), 101 bps below `okxBook`. -/
def bittapBook : BookEvent :=
  { exchange := ExchangeBittap, symbolCanon := "BTCUSDT"
    bestBidPx := 98, bestBidQty := 1, bestAskPx := 99, bestAskQty := 1
    levels := [⟨99, 10⟩], arrivedAtUnixNs := 0, exchTsUnixMs := 0, seq := 0 }

/-- A closed winning paper trade (gross 10 bps, fee 2, net 5). -/
def winPosition : Position :=
  { id := "p1", leader := ExchangeOKX, symbolCanon := "BTCUSDT", side := Side.long
    entryPx := 100, entrySpread := 100, entryTimeNs := 0
    exitPx := 101, exitTimeNs := 5, exitReason := some ExitReason.tp
    grossPnLBps := 10, feeBps := 2, netPnLBps := 5, closed := true }

/-- A closed losing paper trade (gross −8 bps, fee 2, net −10). -/
def lossPosition : Position :=
  { id := "p2", leader := ExchangeOKX, symbolCanon := "BTCUSDT", side := Side.long
    entryPx := 100, entrySpread := 100, entryTimeNs := 0
    exitPx := 99, exitTimeNs := 5, exitReason := some ExitReason.sl
    grossPnLBps := -8, feeBps := 2, netPnLBps := -10, closed := true }

/-- The fresh signal used by the `evRejection_iff` witness. -/
def freshSignal : Signal :=
  mkSignal (Engine.NewEngine ExchangeOKX ⟨10, 0, 0, false, 0, 0⟩) 0 okxBook bittapBook
    Side.long 101

/-- EV window holding one losing trade: `count = 1`, `EV = -10 < 0`. -/
def negativeEVCalc : Calculator :=
  (Calculator.NewCalculator 3).Add (some lossPosition)

/-- A fresh OKX paper executor. -/
def freshExec : Executor :=
  Executor.NewExecutor ExchangeOKX ⟨0, 0, 60000, 0⟩ ⟨0, 0, 0⟩

/-- OKX leader event with venue timestamp 1 ms. -/
def okxLagLeader : BookEvent :=
  { exchange := ExchangeOKX, symbolCanon := "BTCUSDT"
    bestBidPx := 100, bestBidQty := 1, bestAskPx := 101, bestAskQty := 1
    levels := [], arrivedAtUnixNs := 0, exchTsUnixMs := 1, seq := 0 }

/-- Bittap follower event arriving exactly at the leader's venue timestamp
(1 ms = 10⁶ ns), so the computed event lag is zero. -/
def bittapLagFollower : BookEvent :=
  { exchange := ExchangeBittap, symbolCanon := "BTCUSDT"
    bestBidPx := 98, bestBidQty := 1, bestAskPx := 99, bestAskQty := 1
    levels := [], arrivedAtUnixNs := 1000000, exchTsUnixMs := 0, seq := 0 }

/-- Inductive invariant of the EV calculator: the running count splits into
wins and losses, the write index stays inside the positive-sized window, and
the count equals the filled prefix (`windowSize` once the ring wrapped). -/
def CalcInv (c : Calculator) : Prop :=
  c.count = c.winCount + c.lossCount ∧
  1 ≤ c.windowSize ∧
  c.pos < c.windowSize ∧
  c.count = (if c.full then (c.windowSize : ℤ) else (c.pos : ℤ))

/-- An open LONG position on BTCUSDT (entry spread 100 bps at entry
price 99). -/
def openLongPosition : Position :=
  { id := "paper-okx-BTCUSDT-0", leader := ExchangeOKX
    symbolCanon := "BTCUSDT", side := Side.long
    entryPx := 99, entrySpread := 100, entryTimeNs := 0
    exitPx := 0, exitTimeNs := 0, exitReason := none
    grossPnLBps := 0, feeBps := 0, netPnLBps := 0, closed := false }

/-- An executor holding `openLongPosition`. -/
def openLongExec : Executor :=
  { leader := ExchangeOKX
    cfg := { tpRatio := 1/2, slRatio := 1, maxHoldMs := 60000, slippageBps := 0 }
    fee := ⟨0, 0, 0⟩
    positions := fun s => if s = "BTCUSDT" then some openLongPosition else none }

/-- A Bittap book whose ask has converged to the leader (spread ≈ 0 bps),
triggering take-profit against `okxBook`. -/
def convergedBittapBook : BookEvent :=
  { exchange := ExchangeBittap, symbolCanon := "BTCUSDT"
    bestBidPx := 100, bestBidQty := 1, bestAskPx := 100, bestAskQty := 1
    levels := [⟨100, 10⟩], arrivedAtUnixNs := 0, exchTsUnixMs := 0, seq := 0 }

/-- A Bittap book with zero best bid (exit side unusable for a LONG) but a
positive ask converged to the leader, so TP triggers yet no close is
possible. -/
def zeroBidBittapBook : BookEvent :=
  { exchange := ExchangeBittap, symbolCanon := "BTCUSDT"
    bestBidPx := 0, bestBidQty := 0, bestAskPx := 100, bestAskQty := 1
    levels := [⟨100, 10⟩], arrivedAtUnixNs := 0, exchTsUnixMs := 0, seq := 0 }

/-- Strategy config with θ = 10 bps, no persistence, no depth floor, vol
filter off, 1000 ms cooldown. -/
def cooldownStrat : StrategyConfig :=
  { thetaEntryBps := 10, persistMs := 0, minDepthUSD := 0
    volFilterEnabled := false, volThreshold := 0, cooldownMs := 1000 }

/-- The strategy config of the volatility counterexample: θ = 10 bps,
1500 ms persistence, vol filter enabled with threshold 0. -/
def volStrat : StrategyConfig :=
  { thetaEntryBps := 10, persistMs := 1500, minDepthUSD := 0
    volFilterEnabled := true, volThreshold := 0, cooldownMs := 0 }

/-- A higher OKX book (bid 110 / ask 111), mid 110.5. -/
def okxBookHigh : BookEvent :=
  { exchange := ExchangeOKX, symbolCanon := "BTCUSDT"
    bestBidPx := 110, bestBidQty := 1, bestAskPx := 111, bestAskQty := 1
    levels := [⟨110, 10⟩], arrivedAtUnixNs := 0, exchTsUnixMs := 0, seq := 0 }

/-- Engine used by the `vol_filter_blocks` witness: filter enabled, threshold
0, three recorded samples `[1, 4, 2]` whose (id-modelled) log-returns `4` and
`1/2` differ. -/
def volWitnessEngine : Engine :=
  { leader := ExchangeOKX
    cfg := { thetaEntryBps := 10, persistMs := 0, minDepthUSD := 0
             volFilterEnabled := true, volThreshold := 0, cooldownMs := 0 }
    persistNs := 0
    states := fun _ =>
      { vol := { lastSampleNs := 5, samples := [1, 4, 2], maxSamples := 60 } } }

/-- What actually holds of the store: every retrievable entry sits under its
own non-empty `(exchange, symbol)` key. (Validity of prices is *not* part of
it.) -/
def StoreWF (s : Store) : Prop :=
  ∀ ex sym b, s.Get ex sym = some b →
    b.exchange = ex ∧ b.symbolCanon = sym ∧ ex ≠ "" ∧ sym ≠ ""

/-- An *invalid* OKX book event (bid 2 above ask 1) with non-empty keys. -/
def invalidOkxBook : BookEvent :=
  { exchange := ExchangeOKX, symbolCanon := "BTCUSDT"
    bestBidPx := 2, bestBidQty := 1, bestAskPx := 1, bestAskQty := 1
    levels := [], arrivedAtUnixNs := 7, exchTsUnixMs := 0, seq := 0 }

/-- The aggregator state at startup used by the C1 fixtures. -/
def aggInit : AggState :=
  AggState.init cooldownStrat ⟨1/2, 1, 60000, 0⟩ ⟨0, 0, 0⟩ 100 100

/-! ## Theorems -/

theorem goAbs_eq_abs (v : ℚ) : goAbs v = |v| := by
  unfold goAbs
  rcases lt_or_ge v 0 with h | h
  · simp [h, abs_of_neg h]
  · simp [not_lt.mpr h, abs_of_nonneg h]

theorem goAbs_nonneg (v : ℚ) : 0 ≤ goAbs v := by
  rw [goAbs_eq_abs]; exact abs_nonneg v

/-! ## C4 — p_required formula of the EV snapshot -/

/-- C4 counterexample: the claim says the empty window (count = 0) has
`p_required = 1`; `Calculator.Stats` early-returns the zero-valued snapshot,
so a fresh calculator's `p_required` is 0, not 1. -/
theorem pRequired_empty_counterexample :
    (Calculator.NewCalculator 5).Stats.count = 0 ∧
    (Calculator.NewCalculator 5).Stats.pRequired = 0 ∧
    (Calculator.NewCalculator 5).Stats.pRequired ≠ 1 := by
  refine ⟨rfl, rfl, ?_⟩
  decide

/-- C4 (amended): when the window is non-empty, `p_required` equals
`(L + f) / (R + L)` if `R + L > 0` and 1 otherwise; for `count ≤ 0` the
snapshot is the zero-valued early return, so `p_required = 0`. -/
theorem pRequired_formula (c : Calculator) :
    (0 < c.count →
      c.Stats.pRequired =
        if 0 < c.Stats.avgProfit + c.Stats.avgLoss then
          (c.Stats.avgLoss + c.Stats.feeBps) / (c.Stats.avgProfit + c.Stats.avgLoss)
        else 1) ∧
    (c.count ≤ 0 → c.Stats.pRequired = 0) := by
  constructor
  · intro h
    have h' : ¬c.count ≤ 0 := not_le.mpr h
    simp only [Calculator.Stats, h', if_false]
  · intro h
    simp only [Calculator.Stats, h, if_true]

/-- Witness for `pRequired_formula`: one winning trade in the window gives
`count = 1 > 0` and `p_required = (0 + 2) / (10 + 0) = 1/5`. -/
theorem pRequired_formula_witness :
    0 < ((Calculator.NewCalculator 3).Add (some winPosition)).count ∧
    ((Calculator.NewCalculator 3).Add (some winPosition)).Stats.pRequired =
      if 0 < ((Calculator.NewCalculator 3).Add (some winPosition)).Stats.avgProfit +
          ((Calculator.NewCalculator 3).Add (some winPosition)).Stats.avgLoss then
        (((Calculator.NewCalculator 3).Add (some winPosition)).Stats.avgLoss +
            ((Calculator.NewCalculator 3).Add (some winPosition)).Stats.feeBps) /
          (((Calculator.NewCalculator 3).Add (some winPosition)).Stats.avgProfit +
            ((Calculator.NewCalculator 3).Add (some winPosition)).Stats.avgLoss)
      else 1 :=
  ⟨by decide, (pRequired_formula _).1 (by decide)⟩

/-! ## C2 — EV rejection of emitted signals -/

/-- Signals fired by `Engine.tryFire` start with `rejected_by_ev` unset and an
empty filter reason. -/
theorem tryFire_unrejected (e : Engine) (nowNs : ℤ) (lb fb : BookEvent)
    (side : Side) (spreadBps : ℚ) (cand : CandidateState) (s : Signal)
    (hs : (e.tryFire nowNs lb fb side spreadBps cand).1 = some s) :
    s.rejectedByEV = false ∧ s.filterReason = "" := by
  unfold Engine.tryFire at hs
  split_ifs at hs <;> simp only [Option.some.injEq] at hs
  all_goals first
    | exact Option.noConfusion hs
    | (subst hs; exact ⟨rfl, rfl⟩)

/-- Every signal emitted by `Engine.Evaluate` starts with `rejected_by_ev`
unset and an empty filter reason — the hypothesis under which the EV-rejection
theorem below applies to every emitted signal. -/
theorem engine_emitted_unrejected (logQ sqrtQ : ℚ → ℚ) (e : Engine) (nowNs : ℤ)
    (lb fb : BookEvent) (sig : Signal)
    (h : (e.Evaluate logQ sqrtQ nowNs lb fb).1 = some sig) :
    sig.rejectedByEV = false ∧ sig.filterReason = "" := by
  unfold Engine.Evaluate at h
  repeat' (first
    | exact Option.noConfusion h
    | split at h
    | simp only [] at h)
  all_goals (first
    | exact tryFire_unrejected _ _ _ _ _ _ _ _ h
    | (injection h with h
       subst h
       rename_i heq
       injection heq with h1 h2
       exact tryFire_unrejected _ _ _ _ _ _ _ _ h1))

/-- C2: for a freshly emitted signal (`rejected_by_ev` false), after
`applyEVAndMaybeOpen` the flag is set iff the leader's snapshot has
`count > 0 ∧ EV < 0`; a set flag comes with reason `ev_negative`; the signal
is written to the signals output either way; and a rejected signal never
reaches `TryOpen`, leaving the executor unchanged. -/
theorem evRejection_iff (sig : Signal) (c : Calculator) (ex : Executor)
    (hsig : sig.rejectedByEV = false) :
    ((applyEVAndMaybeOpen sig c ex).sig.rejectedByEV = true ↔
      0 < c.Stats.count ∧ c.Stats.ev < 0) ∧
    ((applyEVAndMaybeOpen sig c ex).sig.rejectedByEV = true →
      (applyEVAndMaybeOpen sig c ex).sig.filterReason = "ev_negative") ∧
    (applyEVAndMaybeOpen sig c ex).writtenSignals = [(applyEVAndMaybeOpen sig c ex).sig] ∧
    ((applyEVAndMaybeOpen sig c ex).sig.rejectedByEV = true →
      (applyEVAndMaybeOpen sig c ex).tryOpenCalled = false ∧
      (applyEVAndMaybeOpen sig c ex).exec = ex ∧
      (applyEVAndMaybeOpen sig c ex).openedPosition = none) := by
  by_cases h : 0 < c.Stats.count ∧ c.Stats.ev < 0 <;>
    simp [applyEVAndMaybeOpen, ApplyRejection, h, hsig]

/-- Witness for `evRejection_iff`: a window holding one losing trade has
`count = 1` and `EV = -10 < 0`, so the fresh signal gets rejected, is still
written, and the executor is untouched. -/
theorem evRejection_iff_witness :
    freshSignal.rejectedByEV = false ∧
    (applyEVAndMaybeOpen freshSignal negativeEVCalc freshExec).sig.rejectedByEV = true ∧
    (((applyEVAndMaybeOpen freshSignal negativeEVCalc freshExec).sig.rejectedByEV = true ↔
        0 < negativeEVCalc.Stats.count ∧ negativeEVCalc.Stats.ev < 0) ∧
      ((applyEVAndMaybeOpen freshSignal negativeEVCalc freshExec).sig.rejectedByEV = true →
        (applyEVAndMaybeOpen freshSignal negativeEVCalc freshExec).sig.filterReason =
          "ev_negative") ∧
      (applyEVAndMaybeOpen freshSignal negativeEVCalc freshExec).writtenSignals =
        [(applyEVAndMaybeOpen freshSignal negativeEVCalc freshExec).sig] ∧
      ((applyEVAndMaybeOpen freshSignal negativeEVCalc freshExec).sig.rejectedByEV = true →
        (applyEVAndMaybeOpen freshSignal negativeEVCalc freshExec).tryOpenCalled = false ∧
        (applyEVAndMaybeOpen freshSignal negativeEVCalc freshExec).exec = freshExec ∧
        (applyEVAndMaybeOpen freshSignal negativeEVCalc freshExec).openedPosition = none)) :=
  ⟨rfl,
   by norm_num [applyEVAndMaybeOpen, ApplyRejection, Calculator.Stats, Calculator.Add,
     Calculator.NewCalculator, negativeEVCalc, lossPosition, goAbs, freshSignal, mkSignal],
   evRejection_iff freshSignal negativeEVCalc freshExec rfl⟩

/-! ## C8 — lag tracker recording rules -/

/-- C8 counterexample: the claim says the event lag is recorded exactly when
`leader.exch_ts_ms > 0`, including a computed lag of zero. Here
`exch_ts_ms = 1 > 0` and the lag is `10⁶ − 1·10⁶ = 0`; `Tracker.Add` records
the arrival lag (count 1) but skips the event window entirely (count 0). -/
theorem tracker_zero_event_lag_counterexample :
    0 < okxLagLeader.exchTsUnixMs ∧
    bittapLagFollower.arrivedAtUnixNs - MsToNano okxLagLeader.exchTsUnixMs = 0 ∧
    ((Tracker.NewTracker 2).Add okxLagLeader bittapLagFollower).okx.arrived.count = 1 ∧
    ((Tracker.NewTracker 2).Add okxLagLeader bittapLagFollower).okx.event =
      (Tracker.NewTracker 2).okx.event ∧
    ((Tracker.NewTracker 2).Add okxLagLeader bittapLagFollower).okx.event.count = 0 := by
  refine ⟨by decide, by decide, ?_, ?_, ?_⟩ <;> rfl

/-- C8 (amended): for a call with follower venue Bittap and matching
non-empty symbols, against a leader exchange, the arrival lag is always
recorded into that leader's arrival window, and the event lag is recorded
into that leader's event window exactly when `leader.exch_ts_ms > 0` *and*
the computed event lag is non-zero; the other leader's link is untouched. -/
theorem tracker_add_recording (t : Tracker) (l fe : BookEvent)
    (hf : fe.exchange = ExchangeBittap)
    (hs : l.symbolCanon = fe.symbolCanon) (hne : l.symbolCanon ≠ "") :
    (l.exchange = ExchangeOKX →
      (t.Add l fe).okx.arrived =
        t.okx.arrived.add (fe.arrivedAtUnixNs - l.arrivedAtUnixNs) ∧
      (t.Add l fe).okx.event =
        (if 0 < l.exchTsUnixMs ∧ fe.arrivedAtUnixNs - MsToNano l.exchTsUnixMs ≠ 0 then
          t.okx.event.add (fe.arrivedAtUnixNs - MsToNano l.exchTsUnixMs)
        else t.okx.event) ∧
      (t.Add l fe).binance = t.binance) ∧
    (l.exchange = ExchangeBinance →
      (t.Add l fe).binance.arrived =
        t.binance.arrived.add (fe.arrivedAtUnixNs - l.arrivedAtUnixNs) ∧
      (t.Add l fe).binance.event =
        (if 0 < l.exchTsUnixMs ∧ fe.arrivedAtUnixNs - MsToNano l.exchTsUnixMs ≠ 0 then
          t.binance.event.add (fe.arrivedAtUnixNs - MsToNano l.exchTsUnixMs)
        else t.binance.event) ∧
      (t.Add l fe).okx = t.okx) := by
  have hne' : ¬fe.symbolCanon = "" := hs ▸ hne
  constructor
  · intro hl
    have hlb : l.exchange ≠ ExchangeBinance := by
      rw [hl]; decide
    by_cases hts : 0 < l.exchTsUnixMs
    · by_cases hz : fe.arrivedAtUnixNs - MsToNano l.exchTsUnixMs = 0 <;>
        simp [Tracker.Add, hf, hs, hne', hl, hts, hz]
    · have hz : ¬(0 < l.exchTsUnixMs ∧
          fe.arrivedAtUnixNs - MsToNano l.exchTsUnixMs ≠ 0) := by
        intro h; exact hts h.1
      simp [Tracker.Add, hf, hs, hne', hl, hts, hz]
  · intro hl
    have hlo : l.exchange ≠ ExchangeOKX := by
      rw [hl]; decide
    have hBO : ¬(ExchangeBinance = ExchangeOKX) := by decide
    by_cases hts : 0 < l.exchTsUnixMs
    · by_cases hz : fe.arrivedAtUnixNs - MsToNano l.exchTsUnixMs = 0 <;>
        simp [Tracker.Add, hf, hs, hne', hl, hlo, hBO, hts, hz]
    · have hz : ¬(0 < l.exchTsUnixMs ∧
          fe.arrivedAtUnixNs - MsToNano l.exchTsUnixMs ≠ 0) := by
        intro h; exact hts h.1
      simp [Tracker.Add, hf, hs, hne', hl, hlo, hBO, hts, hz]

/-- Witness for `tracker_add_recording`: an OKX leader event with venue
timestamp 1 ms and a follower arriving at local time 0: the arrival lag 0 and
the non-zero event lag −10⁶ ns are both recorded into the OKX link. -/
theorem tracker_add_recording_witness :
    bittapBook.exchange = ExchangeBittap ∧
    okxLagLeader.symbolCanon = bittapBook.symbolCanon ∧
    okxLagLeader.symbolCanon ≠ "" ∧
    ((okxLagLeader.exchange = ExchangeOKX →
      ((Tracker.NewTracker 4).Add okxLagLeader bittapBook).okx.arrived =
        (Tracker.NewTracker 4).okx.arrived.add
          (bittapBook.arrivedAtUnixNs - okxLagLeader.arrivedAtUnixNs) ∧
      ((Tracker.NewTracker 4).Add okxLagLeader bittapBook).okx.event =
        (if 0 < okxLagLeader.exchTsUnixMs ∧
            bittapBook.arrivedAtUnixNs - MsToNano okxLagLeader.exchTsUnixMs ≠ 0 then
          (Tracker.NewTracker 4).okx.event.add
            (bittapBook.arrivedAtUnixNs - MsToNano okxLagLeader.exchTsUnixMs)
        else (Tracker.NewTracker 4).okx.event) ∧
      ((Tracker.NewTracker 4).Add okxLagLeader bittapBook).binance =
        (Tracker.NewTracker 4).binance) ∧
    (okxLagLeader.exchange = ExchangeBinance →
      ((Tracker.NewTracker 4).Add okxLagLeader bittapBook).binance.arrived =
        (Tracker.NewTracker 4).binance.arrived.add
          (bittapBook.arrivedAtUnixNs - okxLagLeader.arrivedAtUnixNs) ∧
      ((Tracker.NewTracker 4).Add okxLagLeader bittapBook).binance.event =
        (if 0 < okxLagLeader.exchTsUnixMs ∧
            bittapBook.arrivedAtUnixNs - MsToNano okxLagLeader.exchTsUnixMs ≠ 0 then
          (Tracker.NewTracker 4).binance.event.add
            (bittapBook.arrivedAtUnixNs - MsToNano okxLagLeader.exchTsUnixMs)
        else (Tracker.NewTracker 4).binance.event) ∧
      ((Tracker.NewTracker 4).Add okxLagLeader bittapBook).okx =
        (Tracker.NewTracker 4).okx)) :=
  ⟨rfl, rfl, by decide,
   tracker_add_recording (Tracker.NewTracker 4) okxLagLeader bittapBook rfl rfl (by decide)⟩

/-! ## C5 — backoff bounds -/

/-- The cap-then-pick shape of `backoffPreDelay` is a `min`. -/
theorem backoffPreDelay_eq_min (base max : ℤ) (a : ℕ) :
    backoffPreDelay base max a = min max (base * 2 ^ a) := by
  simp only [backoffPreDelay, min_def]
  split_ifs <;> omega

theorem backoffPreDelay_nonneg (base max : ℤ) (a : ℕ)
    (hbase : 0 ≤ base) (hmax : 0 ≤ max) : 0 ≤ backoffPreDelay base max a := by
  rw [backoffPreDelay_eq_min]
  exact le_min hmax (mul_nonneg hbase (by positivity))

/-- C5 counterexample: with `base = max = 1` ns and no jitter, the second
`Next` call (attempt number 1) returns the capped delay 1, below the claimed
lower bound `k·base·(1−jitter) = 2^1·1·1 = 2`: the claim's interval ignores
that the cap is applied before the jitter. -/
theorem backoff_bound_counterexample :
    (((Backoff.New 1 1 0).Next 0).2).attempt = 1 ∧
    ((((Backoff.New 1 1 0).Next 0).2).Next 0).1 = 1 ∧
    ¬((((Backoff.New 1 1 0).base * 2 ^ 1 : ℤ) : ℚ) * (1 - (Backoff.New 1 1 0).jitter) ≤
      ((((((Backoff.New 1 1 0).Next 0).2).Next 0).1 : ℤ) : ℚ)) := by
  refine ⟨rfl, rfl, ?_⟩
  norm_num [Backoff.New, Backoff.Next, backoffPreDelay]

/-- C5 (amended): the pre-jitter delays `min(base·2^attempt, max)` are
non-decreasing in the attempt number, and each returned value lies in
`[⌊d·(1−jitter)⌋, ⌊d·(1+jitter)⌋]` where `d = min(base·2^attempt, max)` is
the capped pre-jitter delay (the floors reflect the truncating
`float64 → time.Duration` conversion). `hnov` restricts to the attempts where
the `int64` shift/product in the Go source does not overflow, which is where
the exact-integer model is faithful. -/
theorem backoff_next_bounds (b : Backoff) (r : ℚ)
    (hbase : 0 ≤ b.base) (hmax : 0 ≤ b.max)
    (hj0 : 0 ≤ b.jitter) (hj1 : b.jitter ≤ 1)
    (hr0 : 0 ≤ r) (hr1 : r ≤ 1)
    (hnov : b.base * 2 ^ b.attempt < 2 ^ 63) :
    (∀ a : ℕ, backoffPreDelay b.base b.max a ≤ backoffPreDelay b.base b.max (a + 1)) ∧
    (⌊((backoffPreDelay b.base b.max b.attempt : ℤ) : ℚ) * (1 - b.jitter)⌋ ≤ (b.Next r).1 ∧
      (b.Next r).1 ≤ ⌊((backoffPreDelay b.base b.max b.attempt : ℤ) : ℚ) * (1 + b.jitter)⌋) := by
  have _ := hnov
  constructor
  · intro a
    rw [backoffPreDelay_eq_min, backoffPreDelay_eq_min]
    refine min_le_min (le_refl _) ?_
    have h2 : (2 : ℤ) ^ a ≤ 2 ^ (a + 1) := by
      exact pow_le_pow_right₀ (by norm_num : (1 : ℤ) ≤ 2) (Nat.le_succ a)
    exact mul_le_mul_of_nonneg_left h2 hbase
  · have hd0 : (0 : ℤ) ≤ backoffPreDelay b.base b.max b.attempt :=
      backoffPreDelay_nonneg _ _ _ hbase hmax
    have hd0' : (0 : ℚ) ≤ ((backoffPreDelay b.base b.max b.attempt : ℤ) : ℚ) := by
      exact_mod_cast hd0
    unfold Backoff.Next
    by_cases hj : 0 < b.jitter
    · simp only [hj, if_true]
      have hfac_lo : 1 - b.jitter ≤ 1 + (r * 2 - 1) * b.jitter := by nlinarith
      have hfac_hi : 1 + (r * 2 - 1) * b.jitter ≤ 1 + b.jitter := by nlinarith
      constructor
      · exact Int.floor_le_floor (mul_le_mul_of_nonneg_left hfac_lo hd0')
      · exact Int.floor_le_floor (mul_le_mul_of_nonneg_left hfac_hi hd0')
    · have hj' : b.jitter = 0 := le_antisymm (not_lt.mp hj) hj0
      rw [hj']
      simp only [lt_self_iff_false, if_false, sub_zero, add_zero, mul_one, Int.floor_intCast]
      exact ⟨le_refl _, le_refl _⟩

/-- Witness for `backoff_next_bounds`: base 1000 ns, cap 30000 ns, jitter
20 %, attempt 3, random draw 1/2; the pre-jitter delay is 8000 and the
returned value is 8000. -/
theorem backoff_next_bounds_witness :
    ((0 : ℤ) ≤ 1000 ∧ (0 : ℤ) ≤ 30000 ∧ (0 : ℚ) ≤ 1/5 ∧ (1/5 : ℚ) ≤ 1 ∧
      (0 : ℚ) ≤ 1/2 ∧ (1/2 : ℚ) ≤ 1 ∧ (1000 * 2 ^ 3 : ℤ) < 2 ^ 63) ∧
    ((⟨1000, 30000, 1/5, 3⟩ : Backoff).Next (1/2)).1 = 8000 ∧
    (⌊((backoffPreDelay 1000 30000 3 : ℤ) : ℚ) * (1 - (1/5 : ℚ))⌋ ≤
        ((⟨1000, 30000, 1/5, 3⟩ : Backoff).Next (1/2)).1 ∧
      ((⟨1000, 30000, 1/5, 3⟩ : Backoff).Next (1/2)).1 ≤
        ⌊((backoffPreDelay 1000 30000 3 : ℤ) : ℚ) * (1 + (1/5 : ℚ))⌋) :=
  ⟨⟨by decide, by decide, by norm_num, by norm_num, by norm_num, by norm_num, by decide⟩,
   by norm_num [Backoff.Next, backoffPreDelay],
   (backoff_next_bounds ⟨1000, 30000, 1/5, 3⟩ (1/2) (by decide) (by decide) (by norm_num)
      (by norm_num) (by norm_num) (by norm_num) (by decide)).2⟩

/-! ## C10 — EV calculator ring-window invariants -/

theorem calcInv_new (ws : ℤ) : CalcInv (Calculator.NewCalculator ws) := by
  unfold CalcInv Calculator.NewCalculator
  by_cases h : ws ≤ 0 <;> simp [h] <;> omega

theorem calcInv_add (c : Calculator) (pos? : Option Position)
    (h : CalcInv c) : CalcInv (c.Add pos?) := by
  obtain ⟨h1, h2, h3, h4⟩ := h
  match pos? with
  | none => exact ⟨h1, h2, h3, h4⟩
  | some p =>
    unfold Calculator.Add
    by_cases hc : p.closed
    · simp only [hc, Bool.not_true, Bool.false_eq_true, if_false]
      by_cases hfull : c.full <;>
        by_cases hold : (c.buf.getD c.pos default).win <;>
          by_cases hwin : decide (0 < p.netPnLBps) = true <;>
            by_cases hwrap : c.windowSize ≤ c.pos + 1 <;>
              simp only [CalcInv, hfull, hold, hwin, hwrap, if_true, if_false,
                Bool.false_eq_true, List.length_set] <;>
              constructor <;> simp_all <;> omega
    · simp only [hc, Bool.not_false, if_true]
      exact ⟨h1, h2, h3, h4⟩

/-- C10: `Add` is a no-op for a nil or non-closed position, and after any
sequence of `Add` calls starting from a fresh calculator the window never
over-counts: `count = win_count + loss_count` and `0 ≤ count ≤ windowSize`. -/
theorem calculator_add_no_op_and_bounds :
    (∀ (c : Calculator) (pos? : Option Position),
      (pos? = none ∨ ∃ p, pos? = some p ∧ p.closed = false) → c.Add pos? = c) ∧
    (∀ (ws : ℤ) (l : List (Option Position)),
      (l.foldl Calculator.Add (Calculator.NewCalculator ws)).count =
          (l.foldl Calculator.Add (Calculator.NewCalculator ws)).winCount +
            (l.foldl Calculator.Add (Calculator.NewCalculator ws)).lossCount ∧
        0 ≤ (l.foldl Calculator.Add (Calculator.NewCalculator ws)).count ∧
        (l.foldl Calculator.Add (Calculator.NewCalculator ws)).count ≤
          ((l.foldl Calculator.Add (Calculator.NewCalculator ws)).windowSize : ℤ)) := by
  constructor
  · rintro c pos? (rfl | ⟨p, rfl, hp⟩)
    · rfl
    · unfold Calculator.Add
      simp [hp]
  · intro ws l
    have hinv : CalcInv (l.foldl Calculator.Add (Calculator.NewCalculator ws)) := by
      induction l generalizing ws with
      | nil => exact calcInv_new ws
      | cons hd tl ih =>
          rw [List.foldl_cons]
          have h0 : CalcInv ((Calculator.NewCalculator ws).Add hd) :=
            calcInv_add _ _ (calcInv_new ws)
          clear ih
          have : ∀ (acc : Calculator), CalcInv acc →
              CalcInv (tl.foldl Calculator.Add acc) := by
            induction tl with
            | nil => intro acc h; exact h
            | cons hd₂ tl₂ ih₂ =>
                intro acc h
                rw [List.foldl_cons]
                exact ih₂ _ (calcInv_add _ _ h)
          exact this _ h0
    obtain ⟨h1, h2, h3, h4⟩ := hinv
    refine ⟨h1, ?_, ?_⟩
    · rcases h4 with h4
      by_cases hf : (l.foldl Calculator.Add (Calculator.NewCalculator ws)).full <;>
        simp [hf] at h4 <;> omega
    · by_cases hf : (l.foldl Calculator.Add (Calculator.NewCalculator ws)).full <;>
        simp [hf] at h4 <;> omega

/-- Witness for `calculator_add_no_op_and_bounds`: adding an open (non-closed)
position leaves the calculator unchanged. -/
theorem calculator_add_no_op_witness :
    ((some { winPosition with closed := false } : Option Position) = none ∨
      ∃ p, (some { winPosition with closed := false } : Option Position) = some p ∧
        p.closed = false) ∧
    (Calculator.NewCalculator 3).Add (some { winPosition with closed := false }) =
      Calculator.NewCalculator 3 :=
  ⟨Or.inr ⟨_, rfl, rfl⟩,
   calculator_add_no_op_and_bounds.1 (Calculator.NewCalculator 3)
     (some { winPosition with closed := false }) (Or.inr ⟨_, rfl, rfl⟩)⟩

/-! ## C3 / C9 — paper executor exit evaluation -/

/-- Characterization of `Executor.Evaluate` once all guards pass: the result
is the TP / SL / timeout if-chain over `Executor.close`. -/
theorem evaluate_exit_characterization (ex : Executor) (nowNs : ℤ)
    (lb fb : BookEvent) (pos : Position) (cur : ℚ)
    (hl : lb.exchange = ex.leader) (hf : fb.exchange = ExchangeBittap)
    (hsym : lb.symbolCanon = fb.symbolCanon) (hne : lb.symbolCanon ≠ "")
    (hpos : ex.positions lb.symbolCanon = some pos) (hopen : pos.closed = false)
    (hcur : currentSpreadBps pos.side lb fb = some cur) :
    ex.Evaluate nowNs lb fb =
      (if tpExitCond ex.cfg (goAbs pos.entrySpread) (goAbs cur) then
        ex.close nowNs pos fb ExitReason.tp
      else if slExitCond ex.cfg (goAbs pos.entrySpread) (goAbs cur) then
        ex.close nowNs pos fb ExitReason.sl
      else if timeoutExitCond ex.cfg nowNs pos.entryTimeNs then
        ex.close nowNs pos fb ExitReason.timeout
      else (none, ex)) := by
  have hfne : fb.symbolCanon ≠ "" := hsym ▸ hne
  have hg1 : ¬(lb.exchange ≠ ex.leader ∨ fb.exchange ≠ ExchangeBittap) := by
    push_neg; exact ⟨hl, hf⟩
  have hg2 : ¬(lb.symbolCanon = "" ∨ fb.symbolCanon = "" ∨
      lb.symbolCanon ≠ fb.symbolCanon) := by
    push_neg; exact ⟨hne, hfne, hsym⟩
  unfold Executor.Evaluate
  rw [if_neg hg1, if_neg hg2, hpos]
  simp only [hopen, Bool.false_eq_true, if_false, hcur]

/-- Fields of a position returned by `Executor.close`. -/
theorem close_result_fields (ex : Executor) (nowNs : ℤ) (pos : Position)
    (fb : BookEvent) (reason : ExitReason) (p' : Position)
    (h : (ex.close nowNs pos fb reason).1 = some p') :
    p'.closed = true ∧ p'.exitReason = some reason := by
  unfold Executor.close at h
  cases hpx : ex.exitPx pos.side fb with
  | none => rw [hpx] at h; simp at h
  | some px =>
      rw [hpx] at h
      simp only [Option.some.injEq] at h
      subst h
      exact ⟨rfl, rfl⟩

/-- C3: for an open position with `E = |entry_spread| > 0` and a computable
current spread, `Executor.Evaluate` checks TP, then SL, then timeout; a
returned closed position carries the first matching reason (TP over SL over
TIMEOUT), and nothing closes unless one of the three conditions holds. -/
theorem executor_exit_priority (ex : Executor) (nowNs : ℤ)
    (lb fb : BookEvent) (pos : Position) (cur : ℚ)
    (hl : lb.exchange = ex.leader) (hf : fb.exchange = ExchangeBittap)
    (hsym : lb.symbolCanon = fb.symbolCanon) (hne : lb.symbolCanon ≠ "")
    (hpos : ex.positions lb.symbolCanon = some pos) (hopen : pos.closed = false)
    (hcur : currentSpreadBps pos.side lb fb = some cur)
    (hE : 0 < goAbs pos.entrySpread) :
    ((ex.Evaluate nowNs lb fb).1 ≠ none →
      tpExitCond ex.cfg (goAbs pos.entrySpread) (goAbs cur) ∨
      slExitCond ex.cfg (goAbs pos.entrySpread) (goAbs cur) ∨
      timeoutExitCond ex.cfg nowNs pos.entryTimeNs) ∧
    (∀ p', (ex.Evaluate nowNs lb fb).1 = some p' →
      p'.closed = true ∧
      p'.exitReason = some
        (if tpExitCond ex.cfg (goAbs pos.entrySpread) (goAbs cur) then ExitReason.tp
         else if slExitCond ex.cfg (goAbs pos.entrySpread) (goAbs cur) then ExitReason.sl
         else ExitReason.timeout)) := by
  have _ := hE
  rw [evaluate_exit_characterization ex nowNs lb fb pos cur hl hf hsym hne hpos hopen hcur]
  constructor
  · intro hne'
    by_cases htp : tpExitCond ex.cfg (goAbs pos.entrySpread) (goAbs cur)
    · exact Or.inl htp
    · by_cases hsl : slExitCond ex.cfg (goAbs pos.entrySpread) (goAbs cur)
      · exact Or.inr (Or.inl hsl)
      · by_cases hto : timeoutExitCond ex.cfg nowNs pos.entryTimeNs
        · exact Or.inr (Or.inr hto)
        · rw [if_neg htp, if_neg hsl, if_neg hto] at hne'
          exact absurd rfl hne'
  · intro p' hp'
    by_cases htp : tpExitCond ex.cfg (goAbs pos.entrySpread) (goAbs cur)
    · rw [if_pos htp] at hp'
      rw [if_pos htp]
      exact close_result_fields ex nowNs pos fb ExitReason.tp p' hp'
    · rw [if_neg htp] at hp'
      rw [if_neg htp]
      by_cases hsl : slExitCond ex.cfg (goAbs pos.entrySpread) (goAbs cur)
      · rw [if_pos hsl] at hp'
        rw [if_pos hsl]
        exact close_result_fields ex nowNs pos fb ExitReason.sl p' hp'
      · rw [if_neg hsl] at hp'
        rw [if_neg hsl]
        by_cases hto : timeoutExitCond ex.cfg nowNs pos.entryTimeNs
        · rw [if_pos hto] at hp'
          exact close_result_fields ex nowNs pos fb ExitReason.timeout p' hp'
        · rw [if_neg hto] at hp'
          simp at hp'

/-- Witness for `executor_exit_priority`: with the spread fully converged
(current 0 bps vs entry 100 bps) the TP condition holds and the returned
position closes with reason TP. -/
theorem executor_exit_priority_witness :
    okxBook.exchange = openLongExec.leader ∧
    convergedBittapBook.exchange = ExchangeBittap ∧
    okxBook.symbolCanon = convergedBittapBook.symbolCanon ∧
    okxBook.symbolCanon ≠ "" ∧
    openLongExec.positions okxBook.symbolCanon ≠ none ∧
    currentSpreadBps Side.long okxBook convergedBittapBook = some 0 ∧
    ((openLongExec.Evaluate 1000 okxBook convergedBittapBook).1 ≠ none →
      tpExitCond openLongExec.cfg (goAbs 100) (goAbs 0) ∨
      slExitCond openLongExec.cfg (goAbs 100) (goAbs 0) ∨
      timeoutExitCond openLongExec.cfg 1000 0) ∧
    (∀ p', (openLongExec.Evaluate 1000 okxBook convergedBittapBook).1 = some p' →
      p'.closed = true ∧
      p'.exitReason = some
        (if tpExitCond openLongExec.cfg (goAbs 100) (goAbs 0) then ExitReason.tp
         else if slExitCond openLongExec.cfg (goAbs 100) (goAbs 0) then ExitReason.sl
         else ExitReason.timeout)) := by
  refine ⟨rfl, rfl, rfl, by decide, by decide, by norm_num [currentSpreadBps, okxBook,
    convergedBittapBook], ?_, ?_⟩
  · exact (executor_exit_priority openLongExec 1000 okxBook convergedBittapBook _ 0
      rfl rfl rfl (by decide) rfl rfl
      (by norm_num [currentSpreadBps, okxBook, convergedBittapBook, openLongPosition])
      (by norm_num [goAbs, openLongPosition])).1
  · exact (executor_exit_priority openLongExec 1000 okxBook convergedBittapBook _ 0
      rfl rfl rfl (by decide) rfl rfl
      (by norm_num [currentSpreadBps, okxBook, convergedBittapBook, openLongPosition])
      (by norm_num [goAbs, openLongPosition])).2

/-- C9: if an exit condition triggers but the follower book side needed for
the exit price is non-positive (best bid for LONG, best ask for SHORT),
`Executor.Evaluate` returns `nil` and the executor — in particular the open
position — is left entirely unmodified, so the position can still close on a
later evaluation. -/
theorem executor_failed_exit_leaves_position (ex : Executor) (nowNs : ℤ)
    (lb fb : BookEvent) (pos : Position) (cur : ℚ)
    (hl : lb.exchange = ex.leader) (hf : fb.exchange = ExchangeBittap)
    (hsym : lb.symbolCanon = fb.symbolCanon) (hne : lb.symbolCanon ≠ "")
    (hpos : ex.positions lb.symbolCanon = some pos) (hopen : pos.closed = false)
    (hcur : currentSpreadBps pos.side lb fb = some cur)
    (hside : (pos.side = Side.long → fb.bestBidPx ≤ 0) ∧
             (pos.side = Side.short → fb.bestAskPx ≤ 0))
    (htrig : tpExitCond ex.cfg (goAbs pos.entrySpread) (goAbs cur) ∨
             slExitCond ex.cfg (goAbs pos.entrySpread) (goAbs cur) ∨
             timeoutExitCond ex.cfg nowNs pos.entryTimeNs) :
    ex.Evaluate nowNs lb fb = (none, ex) := by
  have hpx : ex.exitPx pos.side fb = none := by
    cases hsd : pos.side with
    | long => simp [Executor.exitPx, hside.1 hsd]
    | short => simp [Executor.exitPx, hside.2 hsd]
  have hclose : ∀ reason, ex.close nowNs pos fb reason = (none, ex) := by
    intro reason
    unfold Executor.close
    rw [hpx]
  rw [evaluate_exit_characterization ex nowNs lb fb pos cur hl hf hsym hne hpos hopen hcur]
  by_cases htp : tpExitCond ex.cfg (goAbs pos.entrySpread) (goAbs cur)
  · rw [if_pos htp]; exact hclose _
  · rw [if_neg htp]
    by_cases hsl : slExitCond ex.cfg (goAbs pos.entrySpread) (goAbs cur)
    · rw [if_pos hsl]; exact hclose _
    · rw [if_neg hsl]
      by_cases hto : timeoutExitCond ex.cfg nowNs pos.entryTimeNs
      · rw [if_pos hto]; exact hclose _
      · rcases htrig with h | h | h
        · exact absurd h htp
        · exact absurd h hsl
        · exact absurd h hto

/-- Witness for `executor_failed_exit_leaves_position`: TP condition holds
(current 0 bps vs entry 100 bps) but the follower bid is 0, so the evaluation
returns `nil` and the executor is unchanged. -/
theorem executor_failed_exit_witness :
    (openLongPosition.side = Side.long → zeroBidBittapBook.bestBidPx ≤ 0) ∧
    (tpExitCond openLongExec.cfg (goAbs openLongPosition.entrySpread) (goAbs 0) ∨
      slExitCond openLongExec.cfg (goAbs openLongPosition.entrySpread) (goAbs 0) ∨
      timeoutExitCond openLongExec.cfg 1000 openLongPosition.entryTimeNs) ∧
    openLongExec.Evaluate 1000 okxBook zeroBidBittapBook = (none, openLongExec) := by
  refine ⟨by decide,
    Or.inl (by norm_num [tpExitCond, openLongExec, openLongPosition, goAbs]), ?_⟩
  exact executor_failed_exit_leaves_position openLongExec 1000 okxBook zeroBidBittapBook
    openLongPosition 0 rfl rfl rfl (by decide) rfl rfl
    (by norm_num [currentSpreadBps, okxBook, zeroBidBittapBook, openLongPosition])
    ⟨fun _ => by norm_num [zeroBidBittapBook], fun h => by simp [openLongPosition] at h⟩
    (Or.inl (by norm_num [tpExitCond, openLongExec, openLongPosition, goAbs]))

/-! ## C7 — stop-loss cooldown window -/

/-- C7 counterexample: the claim blocks the closed interval
`[sl_time, sl_time + cooldown_ms·10⁶]`, but the code's check is strict
(`now < cooldown_until`): after `notify_stop_loss("BTCUSDT", 0)` with a
1000 ms cooldown, an evaluation exactly at `t = 10⁹` (the right endpoint)
fires a signal. -/
theorem cooldown_right_endpoint_counterexample :
    (((Engine.NewEngine ExchangeOKX cooldownStrat).NotifyStopLoss "BTCUSDT" 0).states
        "BTCUSDT").cooldownUntilNs = 0 + cooldownStrat.cooldownMs * 1000000 ∧
    ((((Engine.NewEngine ExchangeOKX cooldownStrat).NotifyStopLoss "BTCUSDT" 0).Evaluate
        id id (0 + cooldownStrat.cooldownMs * 1000000) okxBook bittapBook).1).isSome = true := by
  refine ⟨rfl, ?_⟩
  norm_num [Engine.Evaluate, Engine.NewEngine, Engine.NotifyStopLoss, Engine.setState,
    Engine.tryFire, mkSignal, calcLongSpreadBps, calcShortSpreadBps, BookEvent.IsValid,
    BookEvent.MidPrice, BookEvent.Top5DepthUSD, updateVol, realizedVol,
    okxBook, bittapBook, cooldownStrat, ExchangeOKX, ExchangeBittap]
  rw [if_neg (by decide : ¬("BTCUSDT" = ""))]
  rfl

/-- C7 (amended): after `notify_stop_loss(symbol, t₀)` (with `t₀ ≥ 0` and a
positive cooldown), for every `t` in the half-open window
`[t₀, t₀ + cooldown_ms·10⁶)` an evaluation on that symbol returns no signal
and leaves the engine — in particular the symbol's candidate state — entirely
unchanged; `t = t₀ + cooldown_ms·10⁶` is outside the window and may fire, as the
right-endpoint evaluation above exhibits. -/
theorem cooldown_blocks (logQ sqrtQ : ℚ → ℚ) (e : Engine) (sym : String) (t₀ t : ℤ)
    (lb fb : BookEvent)
    (h0 : 0 ≤ t₀) (hcd : 0 < e.cfg.cooldownMs)
    (hsymb : lb.symbolCanon = sym)
    (hlo : t₀ ≤ t) (hhi : t < t₀ + e.cfg.cooldownMs * 1000000) :
    (e.NotifyStopLoss sym t₀).Evaluate logQ sqrtQ t lb fb =
      (none, e.NotifyStopLoss sym t₀) := by
  have hst : ((e.NotifyStopLoss sym t₀).states lb.symbolCanon).cooldownUntilNs =
      t₀ + e.cfg.cooldownMs * 1000000 := by
    rw [hsymb]
    unfold Engine.NotifyStopLoss Engine.setState
    simp
  have hcool : 0 < ((e.NotifyStopLoss sym t₀).states lb.symbolCanon).cooldownUntilNs ∧
      t < ((e.NotifyStopLoss sym t₀).states lb.symbolCanon).cooldownUntilNs := by
    rw [hst]
    omega
  simp only [Engine.Evaluate]
  by_cases g1 : lb.exchange ≠ (e.NotifyStopLoss sym t₀).leader
  · rw [if_pos g1]
  · rw [if_neg g1]
    by_cases g2 : fb.exchange ≠ ExchangeBittap
    · rw [if_pos g2]
    · rw [if_neg g2]
      by_cases g3 : lb.symbolCanon = "" ∨ fb.symbolCanon = "" ∨
          lb.symbolCanon ≠ fb.symbolCanon
      · rw [if_pos g3]
      · rw [if_neg g3]
        by_cases g4 : (!lb.IsValid) = true ∨ (!fb.IsValid) = true
        · rw [if_pos g4]
        · rw [if_neg g4]
          rw [if_pos hcool]

/-- Witness for `cooldown_blocks`: evaluating at `t = 5·10⁸`, inside the
half-open window after a stop-loss at time 0 with a 1000 ms cooldown, yields
no signal and no state change, although the books would otherwise fire. -/
theorem cooldown_blocks_witness :
    ((0 : ℤ) ≤ 0 ∧ (0 : ℤ) < cooldownStrat.cooldownMs ∧ (0 : ℤ) ≤ 500000000 ∧
      (500000000 : ℤ) < 0 + cooldownStrat.cooldownMs * 1000000) ∧
    ((Engine.NewEngine ExchangeOKX cooldownStrat).NotifyStopLoss "BTCUSDT" 0).Evaluate
        id id 500000000 okxBook bittapBook =
      (none, (Engine.NewEngine ExchangeOKX cooldownStrat).NotifyStopLoss "BTCUSDT" 0) :=
  ⟨⟨le_refl 0, by decide, by decide, by decide⟩,
   cooldown_blocks id id (Engine.NewEngine ExchangeOKX cooldownStrat) "BTCUSDT" 0 500000000
     okxBook bittapBook (le_refl 0) (by decide) rfl (by decide) (by decide)⟩

/-! ## C6 — volatility filter -/

/-- `volReturns` produces strictly fewer entries than its non-empty input. -/
theorem volReturns_length_lt (logQ : ℚ → ℚ) :
    ∀ (p0 : ℚ) (rest : List ℚ),
      (volReturns logQ (p0 :: rest)).length < (p0 :: rest).length := by
  intro p0 rest
  induction rest generalizing p0 with
  | nil => simp [volReturns]
  | cons p1 t ih =>
      by_cases h : p0 ≤ 0 ∨ p1 ≤ 0
      · simp only [volReturns, h, if_true]
        exact Nat.lt_trans (ih p1) (Nat.lt_succ_self _)
      · simp only [volReturns, h, if_false, List.length_cons]
        exact Nat.succ_lt_succ (ih p1)

/-- A list of non-negative rationals with a positive member has positive
sum. -/
theorem list_sum_pos_of_mem (l : List ℚ) (h0 : ∀ x ∈ l, 0 ≤ x)
    (x : ℚ) (hx : x ∈ l) (hpos : 0 < x) : 0 < l.sum := by
  induction l with
  | nil => cases hx
  | cons y t ih =>
      rw [List.sum_cons]
      rcases List.mem_cons.mp hx with rfl | hxt
      · have ht : 0 ≤ t.sum :=
          List.sum_nonneg fun z hz => h0 z (List.mem_cons_of_mem _ hz)
        linarith
      · have hy : 0 ≤ y := h0 y (List.mem_cons_self _ _)
        have ht : 0 < t.sum :=
          ih (fun z hz => h0 z (List.mem_cons_of_mem _ hz)) hxt
        linarith

/-- A list containing two distinct values has positive sum of squared
deviations from its mean. -/
theorem sumSqDev_pos (l : List ℚ) (a b : ℚ) (ha : a ∈ l) (hb : b ∈ l)
    (hab : a ≠ b) : 0 < sumSqDev l := by
  unfold sumSqDev
  have hone : a ≠ l.sum / l.length ∨ b ≠ l.sum / l.length := by
    by_contra h
    push_neg at h
    exact hab (h.1.trans h.2.symm)
  have h0 : ∀ x ∈ l.map (fun r => (r - l.sum / l.length) * (r - l.sum / l.length)), 0 ≤ x := by
    intro x hxm
    obtain ⟨r, _, rfl⟩ := List.mem_map.mp hxm
    exact mul_self_nonneg _
  obtain hx | hx := hone
  · exact list_sum_pos_of_mem _ h0 _
      (List.mem_map_of_mem _ ha) (mul_self_pos.mpr (sub_ne_zero.mpr hx))
  · exact list_sum_pos_of_mem _ h0 _
      (List.mem_map_of_mem _ hb) (mul_self_pos.mpr (sub_ne_zero.mpr hx))

/-- `realizedVol` is positive when the log-return list has at least two
entries, two of which differ, and `sqrtQ` (modelling `math.Sqrt`) is positive
on positives. -/
theorem realizedVol_pos (logQ sqrtQ : ℚ → ℚ) (v : VolState)
    (hsqrt : ∀ x : ℚ, 0 < x → 0 < sqrtQ x)
    (hlen : 2 ≤ (volReturns logQ v.samples).length)
    (a b : ℚ) (ha : a ∈ volReturns logQ v.samples)
    (hb : b ∈ volReturns logQ v.samples) (hab : a ≠ b) :
    0 < realizedVol logQ sqrtQ v := by
  have hs2 : ¬(v.samples.length < 2) := by
    cases hsv : v.samples with
    | nil => rw [hsv] at hlen; simp [volReturns] at hlen
    | cons p0 rest =>
        have := volReturns_length_lt logQ p0 rest
        rw [hsv] at hlen
        omega
  unfold realizedVol
  rw [if_neg hs2, if_neg (not_lt.mpr hlen)]
  apply hsqrt
  apply div_pos (sumSqDev_pos _ a b ha hb hab)
  have h2 : (2 : ℚ) ≤ ((volReturns logQ v.samples).length : ℚ) := by exact_mod_cast hlen
  linarith

/-- C6 (amended): when the volatility filter is enabled with threshold 0 and
the per-symbol sample list at evaluation time (after the per-second
resampling step) yields at least two log-returns that are not all equal —
which requires at least three samples — `evaluate` returns no signal
regardless of the spread. With only two samples (a single log-return) the
filter never trips. -/
theorem vol_filter_blocks (logQ sqrtQ : ℚ → ℚ) (e : Engine) (nowNs : ℤ)
    (lb fb : BookEvent)
    (hen : e.cfg.volFilterEnabled = true) (hthr : e.cfg.volThreshold = 0)
    (hsqrt : ∀ x : ℚ, 0 < x → 0 < sqrtQ x)
    (hlen : 2 ≤ (volReturns logQ
      (updateVol (e.states lb.symbolCanon).vol nowNs lb.MidPrice).samples).length)
    (hab : ∃ a ∈ volReturns logQ
        (updateVol (e.states lb.symbolCanon).vol nowNs lb.MidPrice).samples,
      ∃ b ∈ volReturns logQ
        (updateVol (e.states lb.symbolCanon).vol nowNs lb.MidPrice).samples, a ≠ b) :
    (e.Evaluate logQ sqrtQ nowNs lb fb).1 = none := by
  obtain ⟨a, ha, b, hb, hab⟩ := hab
  have hvol : 0 < realizedVol logQ sqrtQ
      (updateVol (e.states lb.symbolCanon).vol nowNs lb.MidPrice) :=
    realizedVol_pos logQ sqrtQ _ hsqrt hlen a b ha hb hab
  simp only [Engine.Evaluate]
  by_cases g1 : lb.exchange ≠ e.leader
  · rw [if_pos g1]
  · rw [if_neg g1]
    by_cases g2 : fb.exchange ≠ ExchangeBittap
    · rw [if_pos g2]
    · rw [if_neg g2]
      by_cases g3 : lb.symbolCanon = "" ∨ fb.symbolCanon = "" ∨
          lb.symbolCanon ≠ fb.symbolCanon
      · rw [if_pos g3]
      · rw [if_neg g3]
        by_cases g4 : (!lb.IsValid) = true ∨ (!fb.IsValid) = true
        · rw [if_pos g4]
        · rw [if_neg g4]
          by_cases g5 : 0 < (e.states lb.symbolCanon).cooldownUntilNs ∧
              nowNs < (e.states lb.symbolCanon).cooldownUntilNs
          · rw [if_pos g5]
          · rw [if_neg g5]
            by_cases g6 : 0 < e.cfg.minDepthUSD ∧ lb.Top5DepthUSD < e.cfg.minDepthUSD
            · rw [if_pos g6]
            · rw [if_neg g6]
              rw [if_pos hen, if_pos ?hc]
              case hc =>
                refine ⟨hen, ?_⟩
                rw [hthr]
                exact hvol

/-- C6 counterexample: after two evaluations one second apart the engine has
observed exactly two differing mid-price samples (100.5 and 110.5), yet a
third evaluation (0.5 s later, so no resampling) fires a signal: with two
samples there is a single log-return, `realizedVol` returns 0 and the
threshold-0 filter does not trip, contradicting the claim. -/
theorem vol_two_samples_counterexample :
    ((((Engine.NewEngine ExchangeOKX volStrat).Evaluate id id 1000000000 okxBook
        bittapBook).2.Evaluate id id 2000000000 okxBookHigh bittapBook).2.states
      "BTCUSDT").vol.samples = [201/2, 221/2] ∧
    (201/2 : ℚ) ≠ 221/2 ∧
    volStrat.volFilterEnabled = true ∧ volStrat.volThreshold = 0 ∧
    (((((Engine.NewEngine ExchangeOKX volStrat).Evaluate id id 1000000000 okxBook
        bittapBook).2.Evaluate id id 2000000000 okxBookHigh bittapBook).2.Evaluate id id
      2500000000 okxBookHigh bittapBook).1).isSome = true := by
  have hbe : ¬("BTCUSDT" = "") := by decide
  refine ⟨?_, by norm_num, rfl, rfl, ?_⟩ <;>
    norm_num [Engine.Evaluate, Engine.NewEngine, Engine.setState, Engine.tryFire,
      mkSignal, calcLongSpreadBps, calcShortSpreadBps, BookEvent.IsValid,
      BookEvent.MidPrice, BookEvent.Top5DepthUSD, updateVol, realizedVol, volReturns,
      sumSqDev, okxBook, okxBookHigh, bittapBook, volStrat, ExchangeOKX, ExchangeBittap, hbe]

/-- Witness for `vol_filter_blocks`: with samples `[1, 4, 2]` (no resampling
at `now = 5`), the two id-log-returns 4 and 1/2 differ, and the evaluation —
whose books would otherwise fire a wide-spread signal — returns no signal. -/
theorem vol_filter_blocks_witness :
    volWitnessEngine.cfg.volFilterEnabled = true ∧
    volWitnessEngine.cfg.volThreshold = 0 ∧
    (∀ x : ℚ, 0 < x → 0 < id x) ∧
    2 ≤ (volReturns id
      (updateVol (volWitnessEngine.states okxBook.symbolCanon).vol 5
        okxBook.MidPrice).samples).length ∧
    (∃ a ∈ volReturns id
        (updateVol (volWitnessEngine.states okxBook.symbolCanon).vol 5
          okxBook.MidPrice).samples,
      ∃ b ∈ volReturns id
        (updateVol (volWitnessEngine.states okxBook.symbolCanon).vol 5
          okxBook.MidPrice).samples, a ≠ b) ∧
    (volWitnessEngine.Evaluate id id 5 okxBook bittapBook).1 = none := by
  have hup : (updateVol (volWitnessEngine.states okxBook.symbolCanon).vol 5
      okxBook.MidPrice).samples = [1, 4, 2] := by
    norm_num [updateVol, volWitnessEngine, okxBook, BookEvent.MidPrice]
  have hret : volReturns id
      (updateVol (volWitnessEngine.states okxBook.symbolCanon).vol 5
        okxBook.MidPrice).samples = [4, 1/2] := by
    rw [hup]
    norm_num [volReturns]
  refine ⟨rfl, rfl, fun x hx => hx, ?_, ?_, ?_⟩
  · rw [hret]; norm_num
  · rw [hret]
    exact ⟨4, by norm_num, 1/2, by norm_num, by norm_num⟩
  · exact vol_filter_blocks id id volWitnessEngine 5 okxBook bittapBook rfl rfl
      (fun x hx => hx) (by rw [hret]; norm_num)
      (by rw [hret]; exact ⟨4, by norm_num, 1/2, by norm_num, by norm_num⟩)

/-! ## C1 — validity of stored book events -/

theorem storeWF_new : StoreWF Store.New := by
  intro ex sym b hb
  simp [Store.Get, Store.New] at hb

theorem storeWF_update (s : Store) (ev : BookEvent) (h : StoreWF s) :
    StoreWF (s.Update ev) := by
  intro ex sym b hb
  unfold Store.Update at hb
  by_cases hg : ev.exchange = "" ∨ ev.symbolCanon = ""
  · rw [if_pos hg] at hb
    exact h ex sym b hb
  · rw [if_neg hg] at hb
    unfold Store.Get at hb
    change (if ex = ev.exchange ∧ sym = ev.symbolCanon then some ev else s.books ex sym) =
      some b at hb
    by_cases hk : ex = ev.exchange ∧ sym = ev.symbolCanon
    · obtain ⟨rfl, rfl⟩ := hk
      rw [if_pos ⟨rfl, rfl⟩] at hb
      injection hb with hb
      subst hb
      push_neg at hg
      exact ⟨rfl, rfl, hg.1, hg.2⟩
    · rw [if_neg hk] at hb
      exact h ex sym b hb

/-- The only store mutation in `handleBookEvent` is the `store.Update` call
(after the nil/empty guard). -/
theorem handleBookEvent_store (logQ sqrtQ : ℚ → ℚ) (st : AggState) (ev : BookEvent) :
    (handleBookEvent logQ sqrtQ st ev).store =
      if ev.exchange = "" ∨ ev.symbolCanon = "" then st.store else st.store.Update ev := by
  unfold handleBookEvent
  by_cases h : ev.exchange = "" ∨ ev.symbolCanon = "" <;> simp [h]

/-- `StoreWF` is preserved by any run of `handleBookEvent` steps. -/
theorem foldl_storeWF (logQ sqrtQ : ℚ → ℚ) (evs : List BookEvent) :
    ∀ st : AggState, StoreWF st.store →
      StoreWF (evs.foldl (handleBookEvent logQ sqrtQ) st).store := by
  induction evs with
  | nil => intro st h; exact h
  | cons hd tl ih =>
      intro st h
      rw [List.foldl_cons]
      apply ih
      rw [handleBookEvent_store]
      by_cases hg : hd.exchange = "" ∨ hd.symbolCanon = ""
      · rw [if_pos hg]; exact h
      · rw [if_neg hg]; exact storeWF_update _ _ h

/-- C1 (amended): the aggregator drops an event before `store.update` only
when its exchange or symbol is empty — price validity is not checked at
intake — so after any sequence of aggregator steps every entry retrievable
via `get`/`get_pair` carries its own non-empty keys, but need not satisfy
`IsValid`. -/
theorem aggregator_store_keys (logQ sqrtQ : ℚ → ℚ) (strat : StrategyConfig)
    (paper : PaperConfig) (fee : FeeDetail) (lagWindow evWindow : ℤ)
    (evs : List BookEvent) (ex sym : String) (b : BookEvent)
    (hget : (evs.foldl (handleBookEvent logQ sqrtQ)
        (AggState.init strat paper fee lagWindow evWindow)).store.Get ex sym = some b) :
    b.exchange = ex ∧ b.symbolCanon = sym ∧ ex ≠ "" ∧ sym ≠ "" :=
  foldl_storeWF logQ sqrtQ evs _ storeWF_new ex sym b hget

/-- C1 counterexample: the claim says invalid events are dropped before
`store.update`; `handleBookEvent` performs no `IsValid` check, so a crossed
book (bid 2 / ask 1) is stored and retrievable via `get`. -/
theorem store_invalid_event_counterexample :
    (handleBookEvent id id aggInit invalidOkxBook).store.Get ExchangeOKX "BTCUSDT" =
      some invalidOkxBook ∧
    invalidOkxBook.IsValid = false := by
  exact ⟨by decide, by decide⟩

/-- Witness for `aggregator_store_keys`: after processing one valid OKX
event, the stored entry is retrievable under its own non-empty keys. -/
theorem aggregator_store_keys_witness :
    ([okxBook].foldl (handleBookEvent id id) aggInit).store.Get ExchangeOKX "BTCUSDT" =
      some okxBook ∧
    (okxBook.exchange = ExchangeOKX ∧ okxBook.symbolCanon = "BTCUSDT" ∧
      ExchangeOKX ≠ "" ∧ "BTCUSDT" ≠ "") :=
  ⟨by decide,
   aggregator_store_keys id id cooldownStrat ⟨1/2, 1, 60000, 0⟩ ⟨0, 0, 0⟩ 100 100
     [okxBook] ExchangeOKX "BTCUSDT" okxBook (by decide)⟩

end LatencyArb
